import Mathlib

/-!
# Shallow embedding of `src/client.rs` (valence client-update subsystem)

This file embeds the per-client protocol state machine of the valence
Minecraft server framework: the `Client` state, the inbound packet handler
`Client.handleServerboundPacket` and the per-tick egress phase
`Client.update`, translated from `src/client.rs`.

Modelling conventions:
* machine integers are `Nat`/`Int` with explicit wrap at `2 ^ 32` where the
  source uses `u32` wrapping arithmetic;
* `f64`/`f32` quantities (positions, angles, velocities) are modelled as
  exact rationals `ℚ`; floating-point rounding of intermediate arithmetic is
  outside the model, but the explicit numeric conversions performed by the
  source (`as i16` truncation with saturation, fixed-point scaling) are
  modelled exactly;
* the bounded outbound channel is modelled as a packet list guarded by the
  connected flag; the `TrySendError::Full` back-pressure disconnect is a
  resource bound with no counterpart in the model;
* `HashSet` containers (`loaded_chunks`, `loaded_entities`) are modelled as
  lists; iteration order of a `HashSet` is unspecified in the source, the
  model fixes list order;
* helpers that live in this repository but outside `src/`
  (`util.rs`, `chunk_pos.rs`, the spatial index, packet field types) are
  modelled from the spec and marked `Modelled from the spec:` in their doc
  comments.
-/

/-- `2 ^ 32`, the modulus of `u32` arithmetic. -/
def U32_SIZE : ℕ := 4294967296

/-- `u32::wrapping_add(1)` on a value stored as `Nat`. -/
def wrapAdd1 (a : ℕ) : ℕ := (a + 1) % U32_SIZE

/-- `u32::wrapping_sub` on values stored as `Nat` (correct for `a < 2 ^ 32`). -/
def wrapSub (a b : ℕ) : ℕ := (a + U32_SIZE - b % U32_SIZE) % U32_SIZE

/-- `u32::checked_add(1)`: `none` exactly on overflow. -/
def checkedAdd1 (a : ℕ) : Option ℕ :=
  if a + 1 < U32_SIZE then some (a + 1) else none

/-- Reinterpretation `i32 as u32` (two's complement) of an `i32` value. -/
def i32AsU32 (n : ℤ) : ℕ := (n % (U32_SIZE : ℤ)).toNat

/-- Truncation of a rational toward zero (the rounding used by Rust float
to integer `as` casts). -/
def ratTrunc (q : ℚ) : ℤ := if 0 ≤ q then ⌊q⌋ else ⌈q⌉

/-- Rust `as` cast from `f64`/`f32` to `i16`: truncate toward zero and
saturate to `[-32768, 32767]` (the semantics of `vek`'s `as_`, i.e. of the
`as` operator, which `src/client.rs` applies to the fixed-point deltas). -/
def ratAsI16 (q : ℚ) : ℤ := max (-32768) (min 32767 (ratTrunc q))

/-- Modelled from the spec: `STANDARD_TPS` (defined in the crate root,
outside `src/`); the glossary fixes it to 20 ticks per second. -/
def STANDARD_TPS : ℚ := 20

/-- Modelled from the spec: `ENTITY_EVENT_MAX_BOUND` (defined by the packet
codec, outside `src/`); an entity event code `≤` this bound is sent as an
`EntityEvent` packet, a greater one as an `Animate` packet.  The claims do
not depend on the exact value. -/
def ENTITY_EVENT_MAX_BOUND : ℕ := 62

/-- Modelled from the spec: `ByteAngle::from_degrees` (packet codec, outside
`src/`): `byte = round(degrees * 256 / 360) mod 256`. -/
def byteAngle (degrees : ℚ) : ℤ := (round (degrees * 256 / 360)) % 256

/-- A 3-vector of rationals, standing in for `vek::Vec3<f64>`/`Vec3<f32>`. -/
structure Vec3 where
  x : ℚ
  y : ℚ
  z : ℚ
  deriving DecidableEq, Repr

/-- The zero vector (`Vec3::default()`). -/
def Vec3.zero : Vec3 := ⟨0, 0, 0⟩

/-- Componentwise subtraction. -/
def Vec3.sub (a b : Vec3) : Vec3 := ⟨a.x - b.x, a.y - b.y, a.z - b.z⟩

/-- Scaling by a rational. -/
def Vec3.scale (k : ℚ) (v : Vec3) : Vec3 := ⟨k * v.x, k * v.y, k * v.z⟩

/-- `a.distance(b) <= r`, stated on squares so it is decidable over `ℚ`
(for the nonnegative radii used by the source the two are equivalent). -/
def distLe (a b : Vec3) (r : ℚ) : Bool :=
  decide ((a.x - b.x) ^ 2 + (a.y - b.y) ^ 2 + (a.z - b.z) ^ 2 ≤ r ^ 2)

/-- `position_delta.map(f64::abs).reduce_partial_max()`. -/
def maxAbsDelta (d : Vec3) : ℚ := max |d.x| (max |d.y| |d.z|)

/-- The fixed-point wire delta `(position_delta * 4096.0).as_::<i16>()`,
truncated toward zero and saturated per axis. -/
def deltaFixed (d : Vec3) : ℤ × ℤ × ℤ :=
  (ratAsI16 (d.x * 4096), ratAsI16 (d.y * 4096), ratAsI16 (d.z * 4096))

/-- Modelled from the spec: `velocity_to_packet_units` (entity.rs, outside
`src/`): per-axis `clamp(m_per_s * 8000 / TPS)` into `i16`. -/
def velocityToPacketUnits (v : Vec3) : ℤ × ℤ × ℤ :=
  (ratAsI16 (v.x * 8000 / STANDARD_TPS),
   ratAsI16 (v.y * 8000 / STANDARD_TPS),
   ratAsI16 (v.z * 8000 / STANDARD_TPS))

/-- A block position, `(x, y, z)` of `i32`. -/
abbrev BlockPos := ℤ × ℤ × ℤ

/-- A chunk position, `(chunk_x, chunk_z)` of `i32`. -/
abbrev ChunkPos := ℤ × ℤ

/-- Modelled from the spec: `ChunkPos::at(x, z)` (chunk_pos.rs, outside
`src/`): the chunk containing the block coordinate, i.e. floor division of
each horizontal coordinate by 16. -/
def chunkPosAt (v : Vec3) : ChunkPos := (⌊v.x / 16⌋, ⌊v.z / 16⌋)

/-- The integer chunk section of a position,
`position.map(|n| (n / 16.0).floor() as i32)`. -/
def sectionOf (v : Vec3) : ℤ × ℤ × ℤ := (⌊v.x / 16⌋, ⌊v.y / 16⌋, ⌊v.z / 16⌋)

/-- Modelled from the spec: `is_chunk_in_view_distance` (util.rs, outside
`src/`): the chunk is within the square window of Chebyshev radius `r`
around the center (the spec's join scenario yields a `5 x 5` square for
view distance 2). -/
def isChunkInViewDistance (center pos : ChunkPos) (r : ℕ) : Bool :=
  decide ((center.1 - pos.1).natAbs ≤ r) && decide ((center.2 - pos.2).natAbs ≤ r)

/-- Modelled from the spec: `chunks_in_view_distance` (util.rs, outside
`src/`): enumerate the `(2r+1) x (2r+1)` square of chunk positions around
the center. -/
def chunksInViewDistance (center : ChunkPos) (r : ℕ) : List ChunkPos :=
  (List.range (2 * r + 1)).flatMap (fun dx =>
    (List.range (2 * r + 1)).map (fun dz =>
      (center.1 - (r : ℤ) + (dx : ℤ), center.2 - (r : ℤ) + (dz : ℤ))))

/-- Association-list lookup (stands in for the slotmap / hashmap lookups of
the source; keys are stable IDs). -/
def lookupA {α β : Type} [DecidableEq α] : List (α × β) → α → Option β
  | [], _ => none
  | e :: rest, k => if e.1 = k then some e.2 else lookupA rest k

/-- Modelled from the spec: `EntityId::to_network_id` (slotmap key packing,
outside `src/`); a stable entity ID is mapped to its wire-level `i32`. -/
def toNetworkId (id : ℕ) : ℤ := (id : ℤ)

/-- The client game mode. -/
inductive GameMode
  | survival
  | creative
  | adventure
  | spectator
  deriving DecidableEq, Repr

/-- The client settings carried by a `ClientInformation` packet. -/
structure Settings where
  locale : ℕ
  view_distance : ℕ
  chat_mode : ℕ
  chat_colors : Bool
  main_hand : ℕ
  displayed_skin_parts : ℕ
  allow_server_listings : Bool
  deriving DecidableEq, Repr

/-- Event-level digging status. -/
inductive DigStatus
  | start
  | cancel
  | finish
  deriving DecidableEq, Repr

/-- Wire-level `DiggingStatus` of a `PlayerAction` packet. -/
inductive C2sDigStatus
  | startedDigging
  | cancelledDigging
  | finishedDigging
  | dropItemStack
  | dropItem
  | shootArrowOrFinishEating
  | swapItemInHand
  deriving DecidableEq, Repr

/-- Wire-level `PlayerCommandId`. -/
inductive PlayerCommandId
  | startSneaking
  | stopSneaking
  | leaveBed
  | startSprinting
  | stopSprinting
  | startJumpWithHorse
  | stopJumpWithHorse
  | openHorseInventory
  | startFlyingWithElytra
  deriving DecidableEq, Repr

/-- The interaction kind of an `Interact` packet. -/
inductive InteractKind
  | interactHand (hand : ℕ)
  | attack
  | interactAt (target : Vec3) (hand : ℕ)
  deriving DecidableEq, Repr

/-- High-level events produced by the ingress decoder (event.rs payloads
that the claims do not inspect are opaque naturals). -/
inductive Event
  | movement (old_position : Vec3) (old_velocity : Vec3) (old_yaw old_pitch : ℚ)
      (old_on_ground : Bool) (new_position : Vec3) (new_velocity : Vec3)
      (new_yaw new_pitch : ℚ) (new_on_ground : Bool)
  | chatMessage (message : ℕ) (timestamp : ℕ)
  | settingsChanged (old : Option Settings)
  | interactWithEntity (id : ℕ) (sneaking : Bool) (kind : InteractKind)
  | startSneaking
  | stopSneaking
  | leaveBed
  | startSprinting
  | stopSprinting
  | startJumpWithHorse (jump_boost : ℕ)
  | stopJumpWithHorse
  | openHorseInventory
  | startFlyingWithElytra
  | armSwing (hand : ℕ)
  | steerBoat (left_paddle_turning right_paddle_turning : Bool)
  | digging (status : DigStatus) (position : BlockPos) (face : ℕ)
  deriving DecidableEq, Repr

/-- Serverbound play packets.  Variants the handler ignores (the `{}` arms
of the source match: `BlockEntityTagQuery`, `ChangeDifficulty`,
`ChatCommand`, `ChatPreview`, `ClientCommand`, `CommandSuggestion`, button
clicks, recipe-book, item and block edits, `Pong`, `PlayerInput`,
`PlayerAbilities`, `TeleportToEntity`, `UseItemOn`, `UseItem`, ...) are
collapsed into `ignored`. -/
inductive C2sPacket
  | acceptTeleportation (teleport_id : ℤ)
  | chat (message : ℕ) (timestamp : ℕ)
  | clientInformation (s : Settings)
  | interact (entity_id : ℤ) (sneaking : Bool) (kind : InteractKind)
  | keepAliveC2s (id : ℤ)
  | movePlayerPosition (position : Vec3) (on_ground : Bool)
  | movePlayerPositionAndRotation (position : Vec3) (yaw pitch : ℚ) (on_ground : Bool)
  | movePlayerRotation (yaw pitch : ℚ) (on_ground : Bool)
  | movePlayerStatusOnly (on_ground : Bool)
  | moveVehicle (position : Vec3) (yaw pitch : ℚ)
  | paddleBoat (left_paddle_turning right_paddle_turning : Bool)
  | playerAction (status : C2sDigStatus) (location : BlockPos) (face : ℕ) (sequence : ℤ)
  | playerCommand (action_id : PlayerCommandId) (jump_boost : ℕ)
  | swing (hand : ℕ)
  | ignored
  deriving DecidableEq, Repr

/-- Clientbound play packets emitted by the egress phase.  Payload fields
that no claim inspects (registry codecs, NBT blobs, chat text) are opaque
naturals; `respawnPkt`'s `dimension` is `none` for the synthetic dummy
dimension and `some d` for a real dimension `d`. -/
inductive Packet
  | playerInfoPkt (payload : ℕ)
  | login (is_hardcore : Bool) (gamemode previous_gamemode : GameMode)
      (view_distance : ℕ) (dimension : ℕ) (is_flat : Bool)
      (last_death_location : Option (ℕ × BlockPos))
  | respawnPkt (dimension_type : ℕ) (dimension : Option ℕ)
      (game_mode previous_game_mode : GameMode) (is_flat : Bool)
      (last_death_location : Option (ℕ × BlockPos))
  | gameEventPkt (mode : GameMode)
  | updateAttributesPkt (key : ℕ) (value : ℚ)
  | spawnPositionPkt (location : BlockPos) (angle : ℚ)
  | setChunkCacheRadiusPkt (view_distance : ℕ)
  | keepAlive (id : ℤ)
  | setChunkCacheCenter (chunk_x chunk_z : ℤ)
  | blockChangePkt (payload : ℕ)
  | forgetLevelChunk (chunk_x chunk_z : ℤ)
  | chunkData (pos : ChunkPos) (payload : ℕ)
  | blockChangeAck (sequence : ℤ)
  | playerPosition (position : Vec3) (yaw pitch : ℚ) (teleport_id : ℕ)
  | setEntityMotion (entity_id : ℤ) (velocity : ℤ × ℤ × ℤ)
  | systemChat (message : ℕ)
  | moveEntityPosition (entity_id : ℤ) (delta : ℤ × ℤ × ℤ) (on_ground : Bool)
  | moveEntityPositionAndRotation (entity_id : ℤ) (delta : ℤ × ℤ × ℤ)
      (yaw pitch : ℤ) (on_ground : Bool)
  | moveEntityRotation (entity_id : ℤ) (yaw pitch : ℤ) (on_ground : Bool)
  | teleportEntity (entity_id : ℤ) (position : Vec3) (yaw pitch : ℤ) (on_ground : Bool)
  | rotateHead (entity_id : ℤ) (head_yaw : ℤ)
  | removeEntities (entity_ids : List ℤ)
  | setEntityMetadata (entity_id : ℤ) (metadata : List ℕ)
  | entityEventPkt (entity_id : ℤ) (entity_status : ℕ)
  | animatePkt (entity_id : ℤ) (animation_code : ℕ)
  | spawnEntityPkt (entity_id : ℤ) (payload : ℕ)
  deriving DecidableEq, Repr

/-- A small tag identifying the constructor of a packet, used to reason
about which egress steps can emit which packet kinds. -/
def Packet.tagOf : Packet → ℕ
  | .playerInfoPkt _ => 0
  | .login .. => 1
  | .respawnPkt .. => 2
  | .gameEventPkt _ => 3
  | .updateAttributesPkt .. => 4
  | .spawnPositionPkt .. => 5
  | .setChunkCacheRadiusPkt _ => 6
  | .keepAlive _ => 7
  | .setChunkCacheCenter .. => 8
  | .blockChangePkt _ => 9
  | .forgetLevelChunk .. => 10
  | .chunkData .. => 11
  | .blockChangeAck _ => 12
  | .playerPosition .. => 13
  | .setEntityMotion .. => 14
  | .systemChat _ => 15
  | .moveEntityPosition .. => 16
  | .moveEntityPositionAndRotation .. => 17
  | .moveEntityRotation .. => 18
  | .teleportEntity .. => 19
  | .rotateHead .. => 20
  | .removeEntities _ => 21
  | .setEntityMetadata .. => 22
  | .entityEventPkt .. => 23
  | .animatePkt .. => 24
  | .spawnEntityPkt .. => 25

/-- The bitfield `ClientFlags` of the source (padding bits dropped). -/
structure ClientFlags where
  spawn : Bool
  sneaking : Bool
  sprinting : Bool
  jumping_with_horse : Bool
  on_ground : Bool
  teleported_this_tick : Bool
  modified_spawn_position : Bool
  got_keepalive : Bool
  hardcore : Bool
  attack_speed_modified : Bool
  movement_speed_modified : Bool
  velocity_modified : Bool
  deriving DecidableEq, Repr

/-- The per-client state of `Client` in `src/client.rs`.  The outbound
channel `send: Option<Sender<_>>` is modelled by `send_connected`;
`channels_closed` models both external channel-closed conditions checked at
the top of `update`.  The fields `data`, `username` and `textures` carry no
behaviour relevant to any claim and are dropped; `player_data` is modelled
by its two observable outputs, `player_metadata` (the bytes produced by
`updated_metadata`) and `player_event_codes` (the pending event codes). -/
structure Client where
  send_connected : Bool
  channels_closed : Bool
  created_tick : ℤ
  uuid : ℕ
  world : ℕ
  new_position : Vec3
  old_position : Vec3
  velocity : Vec3
  yaw : ℚ
  pitch : ℚ
  teleport_id_counter : ℕ
  pending_teleports : ℕ
  spawn_position : BlockPos
  spawn_position_yaw : ℚ
  death_location : Option (ℕ × BlockPos)
  events : List Event
  last_keepalive_id : ℤ
  new_max_view_distance : ℕ
  old_max_view_distance : ℕ
  loaded_entities : List ℕ
  loaded_chunks : List ChunkPos
  new_game_mode : GameMode
  old_game_mode : GameMode
  settings : Option Settings
  dug_blocks : List ℤ
  msgs_to_send : List ℕ
  attack_speed : ℚ
  movement_speed : ℚ
  flags : ClientFlags
  player_metadata : List ℕ
  player_event_codes : List ℕ
  deriving DecidableEq, Repr

/-- `Client::disconnect_no_reason`: drop the outbound sender. -/
def disconnectNoReason (c : Client) : Client := { c with send_connected := false }

/-- `Client::is_disconnected`. -/
def Client.isDisconnected (c : Client) : Bool := !c.send_connected

/-- `Client::view_distance`:
`settings.map_or(2, |s| s.view_distance).min(max_view_distance())`. -/
def Client.viewDistance (c : Client) : ℕ :=
  min (match c.settings with
       | some s => s.view_distance
       | none => 2)
      c.new_max_view_distance

/-- `Client::teleport`.  The position, rotation and velocity are written
unconditionally; the handshake counters are advanced only on the first call
of a tick, and `pending_teleports` overflow disconnects the client without
touching `teleport_id_counter`. -/
def Client.teleport (c : Client) (pos : Vec3) (yaw pitch : ℚ) : Client :=
  let c1 := { c with new_position := pos, yaw := yaw, pitch := pitch,
                     velocity := Vec3.zero }
  if c1.flags.teleported_this_tick then c1
  else
    let c2 := { c1 with flags := { c1.flags with teleported_this_tick := true } }
    match checkedAdd1 c2.pending_teleports with
    | some n =>
        { c2 with pending_teleports := n,
                  teleport_id_counter := wrapAdd1 c2.teleport_id_counter }
    | none => disconnectNoReason c2

/-- The state of an entity as observed by `Client::update` (the parts of
`Entity` read through `entities.get(id)`).  `aabb_min`/`aabb_max`: modelled
from the spec, the hitbox AABB indexed by the world's spatial index. -/
inductive EntityKind
  | marker
  | other (tag : ℕ)
  deriving DecidableEq, Repr

structure EntityData where
  kind : EntityKind
  uuid : ℕ
  position : Vec3
  old_position : Vec3
  yaw : ℚ
  pitch : ℚ
  head_yaw : ℚ
  velocity : Vec3
  on_ground : Bool
  yaw_or_pitch_modified : Bool
  velocity_modified : Bool
  head_yaw_modified : Bool
  event_codes : List ℕ
  updated_metadata : Option (List ℕ)
  initial_metadata : Option (List ℕ)
  spawn_payload : ℕ
  aabb_min : Vec3
  aabb_max : Vec3
  deriving DecidableEq, Repr

/-- The `Entities` container, keyed by stable entity IDs. -/
abbrev Entities := List (ℕ × EntityData)

/-- A chunk as observed by the client update: its creation tick, the
payload of its full chunk-data packet, and its pending per-chunk
block-change packets. -/
structure Chunk where
  created_tick : ℤ
  payload : ℕ
  block_changes : List ℕ
  deriving DecidableEq, Repr

/-- A world as observed by the client update.  `player_list_initial` and
`player_list_diff` are the opaque payloads of the player-list snapshot and
diff packets; `spatial_entities` — modelled from the spec — is the content
of the world's spatial index (entity IDs whose AABBs it holds). -/
structure World where
  chunks : List (ChunkPos × Chunk)
  dimension : ℕ
  is_flat : Bool
  player_list_initial : List ℕ
  player_list_diff : List ℕ
  spatial_entities : List ℕ
  deriving DecidableEq, Repr

/-- The shared server state read by `Client::update`.  `keepalive_rand`
models the value `rand::random()` would produce this tick. -/
structure SharedServer where
  current_tick : ℤ
  tick_rate : ℤ
  keepalive_rand : ℤ
  deriving DecidableEq, Repr

/-- Append one event to the client's event queue (`events.push_back`). -/
def pushEvent (c : Client) (e : Event) : Client := { c with events := c.events ++ [e] }

/-- The inner helper `handle_movement_packet` of
`Client::handle_serverbound_packet`: drop the packet entirely while a
teleport is pending, otherwise derive the velocity, queue a `Movement`
event and commit position, rotation and on-ground flag. -/
def handleMovementPacket (c : Client) (_vehicle : Bool) (new_position : Vec3)
    (new_yaw new_pitch : ℚ) (new_on_ground : Bool) : Client :=
  if c.pending_teleports = 0 then
    let new_velocity := Vec3.scale STANDARD_TPS (new_position.sub c.new_position)
    let ev := Event.movement c.new_position c.velocity c.yaw c.pitch
      c.flags.on_ground new_position new_velocity new_yaw new_pitch new_on_ground
    { c with new_position := new_position, velocity := new_velocity,
             yaw := new_yaw, pitch := new_pitch,
             flags := { c.flags with on_ground := new_on_ground },
             events := c.events ++ [ev] }
  else c

/-- `Client::handle_serverbound_packet`. -/
def Client.handleServerboundPacket (ents : Entities) (c : Client) :
    C2sPacket → Client
  | .acceptTeleportation tid =>
      if c.pending_teleports = 0 then disconnectNoReason c
      else
        let got := i32AsU32 tid
        let expected := wrapSub c.teleport_id_counter c.pending_teleports
        if got = expected then
          { c with pending_teleports := c.pending_teleports - 1 }
        else disconnectNoReason c
  | .chat message timestamp => pushEvent c (Event.chatMessage message timestamp)
  | .clientInformation s =>
      pushEvent { c with settings := some s } (Event.settingsChanged c.settings)
  | .interact entity_id sneaking kind =>
      match (ents.find? (fun p => toNetworkId p.1 = entity_id)).map Prod.fst with
      | some id => pushEvent c (Event.interactWithEntity id sneaking kind)
      | none => c
  | .keepAliveC2s id =>
      if c.flags.got_keepalive then disconnectNoReason c
      else if id ≠ c.last_keepalive_id then disconnectNoReason c
      else { c with flags := { c.flags with got_keepalive := true } }
  | .movePlayerPosition position on_ground =>
      handleMovementPacket c false position c.yaw c.pitch on_ground
  | .movePlayerPositionAndRotation position yaw pitch on_ground =>
      handleMovementPacket c false position yaw pitch on_ground
  | .movePlayerRotation yaw pitch on_ground =>
      handleMovementPacket c false c.new_position yaw pitch on_ground
  | .movePlayerStatusOnly on_ground =>
      handleMovementPacket c false c.new_position c.yaw c.pitch on_ground
  | .moveVehicle position yaw pitch =>
      handleMovementPacket c true position yaw pitch c.flags.on_ground
  | .paddleBoat l r => pushEvent c (Event.steerBoat l r)
  | .playerAction status location face sequence =>
      let c1 := if sequence ≠ 0 then
          { c with dug_blocks := c.dug_blocks ++ [sequence] }
        else c
      match status with
      | .startedDigging => pushEvent c1 (Event.digging DigStatus.start location face)
      | .cancelledDigging => pushEvent c1 (Event.digging DigStatus.cancel location face)
      | .finishedDigging => pushEvent c1 (Event.digging DigStatus.finish location face)
      | _ => c1
  | .playerCommand action_id jump_boost =>
      match action_id with
      | .startSneaking =>
          if c.flags.sneaking then c
          else pushEvent { c with flags := { c.flags with sneaking := true } }
            Event.startSneaking
      | .stopSneaking =>
          if !c.flags.sneaking then c
          else pushEvent { c with flags := { c.flags with sneaking := false } }
            Event.stopSneaking
      | .leaveBed => pushEvent c Event.leaveBed
      | .startSprinting =>
          if c.flags.sprinting then c
          else pushEvent { c with flags := { c.flags with sprinting := true } }
            Event.startSprinting
      | .stopSprinting =>
          if !c.flags.sprinting then c
          else pushEvent { c with flags := { c.flags with sprinting := false } }
            Event.stopSprinting
      | .startJumpWithHorse =>
          pushEvent { c with flags := { c.flags with jumping_with_horse := true } }
            (Event.startJumpWithHorse jump_boost)
      | .stopJumpWithHorse =>
          pushEvent { c with flags := { c.flags with jumping_with_horse := false } }
            Event.stopJumpWithHorse
      | .openHorseInventory => pushEvent c Event.openHorseInventory
      | .startFlyingWithElytra => pushEvent c Event.startFlyingWithElytra
  | .swing hand => pushEvent c (Event.armSwing hand)
  | .ignored => c

/-- `Client::handle_serverbound_packets`: the event queue is cleared, then
every packet queued at the start of the ingress phase is handled. -/
def Client.handleServerboundPackets (ents : Entities) (c : Client)
    (pkts : List C2sPacket) : Client :=
  pkts.foldl (Client.handleServerboundPacket ents) { c with events := [] }

/-- Gate a list of packets on the outbound sender being present
(`send_packet` drops packets once `send` is `None`). -/
def sendIf (conn : Bool) (ps : List Packet) : List Packet := if conn then ps else []

/-- The initial-join branch of `Client::update`
(`created_tick == current_tick`): player-list snapshot, `Login` packet,
then `teleport(position, yaw, pitch)` to arm the handshake. -/
def joinSegment (c : Client) (w : World) : Client × List Packet :=
  let pkts := w.player_list_initial.map Packet.playerInfoPkt ++
    [Packet.login c.flags.hardcore c.new_game_mode c.old_game_mode
      c.new_max_view_distance w.dimension w.is_flat c.death_location]
  (Client.teleport c c.new_position c.yaw c.pitch, sendIf c.send_connected pkts)

/-- The respawn / dimension-change block of `Client::update` (`spawn` flag
set, not the join tick): clear the flag and the per-client view, emit the
dummy-dimension `Respawn` followed by the real one, re-arm the teleport
handshake. -/
def respawnSegment (c : Client) (w : World) : Client × List Packet :=
  if c.flags.spawn then
    let c1 := { c with flags := { c.flags with spawn := false },
                       loaded_entities := [], loaded_chunks := [] }
    let pkts :=
      [Packet.respawnPkt 0 none c1.new_game_mode c1.new_game_mode false none,
       Packet.respawnPkt w.dimension (some w.dimension) c1.new_game_mode
         c1.new_game_mode w.is_flat c1.death_location]
    (Client.teleport c1 c1.new_position c1.yaw c1.pitch,
     sendIf c1.send_connected pkts)
  else (c, [])

/-- The game-mode change block of `Client::update`. -/
def gameModeSegment (c : Client) : Client × List Packet :=
  if c.old_game_mode ≠ c.new_game_mode then
    ({ c with old_game_mode := c.new_game_mode },
     sendIf c.send_connected [Packet.gameEventPkt c.new_game_mode])
  else (c, [])

/-- The non-join branch of `Client::update`: respawn block, game-mode
block, player-list diff packets. -/
def elseSegment (c : Client) (w : World) : Client × List Packet :=
  let a := respawnSegment c w
  let b := gameModeSegment a.1
  (b.1, a.2 ++ b.2 ++
    sendIf b.1.send_connected (w.player_list_diff.map Packet.playerInfoPkt))

/-- The attribute blocks of `Client::update` (attack speed key 0, movement
speed key 1). -/
def attrSegment (c : Client) : Client × List Packet :=
  let a :=
    if c.flags.attack_speed_modified then
      ({ c with flags := { c.flags with attack_speed_modified := false } },
       sendIf c.send_connected [Packet.updateAttributesPkt 0 c.attack_speed])
    else (c, [])
  let c1 := a.1
  let b :=
    if c1.flags.movement_speed_modified then
      ({ c1 with flags := { c1.flags with movement_speed_modified := false } },
       sendIf c1.send_connected [Packet.updateAttributesPkt 1 c1.movement_speed])
    else (c1, [])
  (b.1, a.2 ++ b.2)

/-- The spawn-position (compass) block of `Client::update`. -/
def spawnPosSegment (c : Client) : Client × List Packet :=
  if c.flags.modified_spawn_position then
    ({ c with flags := { c.flags with modified_spawn_position := false } },
     sendIf c.send_connected
       [Packet.spawnPositionPkt c.spawn_position c.spawn_position_yaw])
  else (c, [])

/-- The view-distance block of `Client::update`: sync `old` to `new` and
emit the radius packet except on the join tick. -/
def viewDistSegment (tick : ℤ) (c : Client) : Client × List Packet :=
  if c.old_max_view_distance ≠ c.new_max_view_distance then
    ({ c with old_max_view_distance := c.new_max_view_distance },
     if c.created_tick ≠ tick then
       sendIf c.send_connected
         [Packet.setChunkCacheRadiusPkt c.new_max_view_distance]
     else [])
  else (c, [])

/-- The keep-alive block of `Client::update`: every `tick_rate * 8` ticks
(`%` is Rust's truncated remainder, `Int.tmod`), either emit a fresh
keep-alive and clear `got_keepalive`, or disconnect on timeout. -/
def keepaliveSegment (tick rate rand : ℤ) (c : Client) : Client × List Packet :=
  if Int.tmod tick (rate * 8) = 0 then
    if c.flags.got_keepalive then
      ({ c with last_keepalive_id := rand,
                flags := { c.flags with got_keepalive := false } },
       sendIf c.send_connected [Packet.keepAlive rand])
    else (disconnectNoReason c, [])
  else (c, [])

/-- The chunk-section-center block of `Client::update` (stateless). -/
def centerPackets (c : Client) : List Packet :=
  if sectionOf c.old_position ≠ sectionOf c.new_position then
    sendIf c.send_connected
      [Packet.setChunkCacheCenter (sectionOf c.new_position).1
        (sectionOf c.new_position).2.2]
  else []

/-- The chunk-retention loop (`loaded_chunks.retain`): a chunk is kept —
and its block-change packets emitted — iff it still exists, is within
`view_dist + 2` (the cache hysteresis) of the center and was not
(re)created this tick; otherwise a forget-chunk packet is emitted and the
position is dropped.  Returns the kept positions and the packets. -/
def retainLoop (conn : Bool) (w : World) (tick : ℤ) (center : ChunkPos)
    (view_dist : ℕ) : List ChunkPos → List ChunkPos × List Packet
  | [] => ([], [])
  | pos :: rest =>
    match lookupA w.chunks pos with
    | some ch =>
      if isChunkInViewDistance center pos (view_dist + 2) ∧ ch.created_tick ≠ tick then
        let r := retainLoop conn w tick center view_dist rest
        (pos :: r.1, sendIf conn (ch.block_changes.map Packet.blockChangePkt) ++ r.2)
      else
        let r := retainLoop conn w tick center view_dist rest
        (r.1, sendIf conn [Packet.forgetLevelChunk pos.1 pos.2] ++ r.2)
    | none =>
        let r := retainLoop conn w tick center view_dist rest
        (r.1, sendIf conn [Packet.forgetLevelChunk pos.1 pos.2] ++ r.2)

/-- The chunk-loading loop: for every candidate position in view, if the
world has the chunk and `loaded_chunks.insert(pos)` admits it as new, emit
its full chunk-data packet followed by its block-change packets.  Returns
the final loaded set and the packets. -/
def loadLoop (conn : Bool) (w : World) (loaded : List ChunkPos) :
    List ChunkPos → List ChunkPos × List Packet
  | [] => (loaded, [])
  | pos :: rest =>
    match lookupA w.chunks pos with
    | some ch =>
      if pos ∈ loaded then loadLoop conn w loaded rest
      else
        let r := loadLoop conn w (pos :: loaded) rest
        (r.1, sendIf conn (Packet.chunkData pos ch.payload ::
          ch.block_changes.map Packet.blockChangePkt) ++ r.2)
    | none => loadLoop conn w loaded rest

/-- The dig-acknowledgement block of `Client::update`: `dug_blocks` is
drained into one `BlockChangeAck` per recorded sequence number. -/
def digSegment (c : Client) : Client × List Packet :=
  ({ c with dug_blocks := [] },
   sendIf c.send_connected (c.dug_blocks.map Packet.blockChangeAck))

/-- The teleport block of `Client::update`: if the client teleported this
tick, clear the flag and emit a `PlayerPosition` packet carrying
`teleport_id_counter - 1` (u32 wrapping). -/
def teleportSegment (c : Client) : Client × List Packet :=
  if c.flags.teleported_this_tick then
    ({ c with flags := { c.flags with teleported_this_tick := false } },
     sendIf c.send_connected
       [Packet.playerPosition c.new_position c.yaw c.pitch
         (wrapSub c.teleport_id_counter 1)])
  else (c, [])

/-- The velocity block of `Client::update`. -/
def velocitySegment (c : Client) : Client × List Packet :=
  if c.flags.velocity_modified then
    ({ c with flags := { c.flags with velocity_modified := false } },
     sendIf c.send_connected
       [Packet.setEntityMotion 0 (velocityToPacketUnits c.velocity)])
  else (c, [])

/-- The chat block of `Client::update`: drain `msgs_to_send`. -/
def chatSegment (c : Client) : Client × List Packet :=
  ({ c with msgs_to_send := [] },
   sendIf c.send_connected (c.msgs_to_send.map Packet.systemChat))

/-- `send_entity_events`: each pending event code becomes an `EntityEvent`
packet when within bound and an `Animate` packet otherwise. -/
def entityEventPackets (nid : ℤ) (codes : List ℕ) : List Packet :=
  codes.map (fun code =>
    if code ≤ ENTITY_EVENT_MAX_BOUND then Packet.entityEventPkt nid code
    else Packet.animatePkt nid (code - ENTITY_EVENT_MAX_BOUND - 1))

/-- The packets emitted for one visible loaded entity (the body of the
`loaded_entities.retain` closure): optional metadata update, then the
movement packets chosen from the per-axis deltas (`TeleportEntity` when
the largest absolute per-axis delta reaches 8 blocks, otherwise the
combined / position-only / rotation-only compact forms), then optional
velocity, head-yaw and entity-event packets. -/
def entityVisiblePackets (id : ℕ) (e : EntityData) : List Packet :=
  let nid := toNetworkId id
  let position_delta := e.position.sub e.old_position
  let needs_teleport := 8 ≤ maxAbsDelta position_delta
  (match e.updated_metadata with
   | some m => [Packet.setEntityMetadata nid m]
   | none => []) ++
  (if e.position ≠ e.old_position ∧ ¬needs_teleport ∧ e.yaw_or_pitch_modified then
    [Packet.moveEntityPositionAndRotation nid (deltaFixed position_delta)
      (byteAngle e.yaw) (byteAngle e.pitch) e.on_ground]
  else
    (if e.position ≠ e.old_position ∧ ¬needs_teleport then
      [Packet.moveEntityPosition nid (deltaFixed position_delta) e.on_ground]
    else []) ++
    (if e.yaw_or_pitch_modified then
      [Packet.moveEntityRotation nid (byteAngle e.yaw) (byteAngle e.pitch)
        e.on_ground]
    else [])) ++
  (if needs_teleport then
    [Packet.teleportEntity nid e.position (byteAngle e.yaw) (byteAngle e.pitch)
      e.on_ground]
  else []) ++
  (if e.velocity_modified then
    [Packet.setEntityMotion nid (velocityToPacketUnits e.velocity)]
  else []) ++
  (if e.head_yaw_modified then [Packet.rotateHead nid (byteAngle e.head_yaw)]
  else []) ++
  entityEventPackets nid e.event_codes

/-- The visible-entity loop (`loaded_entities.retain`): entities that still
exist within `view_dist * 16` of the client are kept and updated; the rest
are dropped and their network IDs collected for the bulk unload.  Returns
(kept IDs, unload network IDs, packets). -/
def entityRetainLoop (conn : Bool) (ents : Entities) (clientPos : Vec3)
    (radius : ℚ) : List ℕ → List ℕ × List ℤ × List Packet
  | [] => ([], [], [])
  | id :: rest =>
    match lookupA ents id with
    | some e =>
      if distLe clientPos e.position radius then
        let r := entityRetainLoop conn ents clientPos radius rest
        (id :: r.1, r.2.1, sendIf conn (entityVisiblePackets id e) ++ r.2.2)
      else
        let r := entityRetainLoop conn ents clientPos radius rest
        (r.1, toNetworkId id :: r.2.1, r.2.2)
    | none =>
        let r := entityRetainLoop conn ents clientPos radius rest
        (r.1, toNetworkId id :: r.2.1, r.2.2)

/-- The self-metadata block of `Client::update`: emit the client's own
player metadata (entity id 0) when nonempty, terminated by `0xff`. -/
def selfMetaPackets (c : Client) : List Packet :=
  if c.player_metadata ≠ [] then
    sendIf c.send_connected
      [Packet.setEntityMetadata 0 (c.player_metadata ++ [255])]
  else []

/-- Whether the client's position is within `radius` of the projection of
itself onto an entity's AABB — the spatial-index query predicate
(modelled from the spec: "entities whose AABB projected onto point `p`
lies within radius `r`"). -/
def aabbProjWithin (amin amax pos : Vec3) (radius : ℚ) : Bool :=
  distLe pos ⟨max amin.x (min amax.x pos.x), max amin.y (min amax.y pos.y),
              max amin.z (min amax.z pos.z)⟩ radius

/-- The entity-discovery loop: for every entity in the world's spatial
index whose AABB projects within range, if it is not a marker, not the
client itself, and `loaded_entities.insert(id)` admits it as new, emit its
spawn packet, optional initial metadata and pending entity events.
Returns the final loaded set and the packets. -/
def discoveryLoop (conn : Bool) (ents : Entities) (selfUuid : ℕ)
    (clientPos : Vec3) (radius : ℚ) (loaded : List ℕ) :
    List ℕ → List ℕ × List Packet
  | [] => (loaded, [])
  | id :: rest =>
    match lookupA ents id with
    | some e =>
      if aabbProjWithin e.aabb_min e.aabb_max clientPos radius then
        if e.kind ≠ EntityKind.marker ∧ e.uuid ≠ selfUuid ∧ id ∉ loaded then
          let pkts := Packet.spawnEntityPkt (toNetworkId id) e.spawn_payload ::
            (match e.initial_metadata with
             | some m => [Packet.setEntityMetadata (toNetworkId id) m]
             | none => []) ++
            entityEventPackets (toNetworkId id) e.event_codes
          let r := discoveryLoop conn ents selfUuid clientPos radius (id :: loaded) rest
          (r.1, sendIf conn pkts ++ r.2)
        else discoveryLoop conn ents selfUuid clientPos radius loaded rest
      else discoveryLoop conn ents selfUuid clientPos radius loaded rest
    | none => discoveryLoop conn ents selfUuid clientPos radius loaded rest

/-- The self entity-event block of `Client::update`: event codes within
bound become `EntityEvent` packets for entity id 0; animation codes for
self are suppressed. -/
def selfEventPackets (c : Client) : List Packet :=
  sendIf c.send_connected
    ((c.player_event_codes.filter (fun code =>
        decide (code ≤ ENTITY_EVENT_MAX_BOUND))).map
      (fun code => Packet.entityEventPkt 0 code))

/-- The sweep at the end of `Client::update`:
`player_data.clear_modifications(); old_position = new_position`. -/
def sweepClient (c : Client) : Client :=
  { c with old_position := c.new_position, player_metadata := [],
           player_event_codes := [] }

/-- The body of `Client::update` once the channel checks passed and the
world resolved: the egress steps in the contractual order of the source.
Returns the post-tick client state and the packets appended to the
outbound channel this tick. -/
def clientUpdateBody (shared : SharedServer) (ents : Entities) (w : World)
    (c0 : Client) : Client × List Packet :=
  let tick := shared.current_tick
  let s1 := if c0.created_tick = tick then joinSegment c0 w
                else elseSegment c0 w
  let c1 := s1.1
  let s2 := attrSegment c1
  let c2 := s2.1
  let s3 := spawnPosSegment c2
  let c3 := s3.1
  let s4 := viewDistSegment tick c3
  let c4 := s4.1
  let s5 := keepaliveSegment tick shared.tick_rate shared.keepalive_rand c4
  let c5 := s5.1
  let view_dist := c5.viewDistance
  let center := chunkPosAt c5.new_position
  let o6 := centerPackets c5
  let rl := retainLoop c5.send_connected w tick center view_dist c5.loaded_chunks
  let c6 := { c5 with loaded_chunks := rl.1 }
  let ll := loadLoop c6.send_connected w c6.loaded_chunks
    (chunksInViewDistance center view_dist)
  let c7 := { c6 with loaded_chunks := ll.1 }
  let s8 := digSegment c7
  let c8 := s8.1
  let s9 := teleportSegment c8
  let c9 := s9.1
  let s10 := velocitySegment c9
  let c10 := s10.1
  let s11 := chatSegment c10
  let c11 := s11.1
  let radius := (view_dist : ℚ) * 16
  let er := entityRetainLoop c11.send_connected ents c11.new_position radius
        c11.loaded_entities
  let c12 := { c11 with loaded_entities := er.1 }
  let o13 := if er.2.1 = [] then []
             else sendIf c12.send_connected [Packet.removeEntities er.2.1]
  let o14 := selfMetaPackets c12
  let dl := discoveryLoop c12.send_connected ents c12.uuid c12.new_position
    radius c12.loaded_entities w.spatial_entities
  let c13 := { c12 with loaded_entities := dl.1 }
  let o15 := selfEventPackets c13
  (sweepClient c13,
   s1.2 ++ s2.2 ++ s3.2 ++ s4.2 ++ s5.2 ++ o6 ++ rl.2 ++ ll.2 ++ s8.2 ++
     s9.2 ++ s10.2 ++ s11.2 ++ er.2.2 ++ o13 ++ o14 ++ dl.2 ++ o15)

/-- `Client::update`: disconnection detection and world resolution, then
the egress body. -/
def Client.update (shared : SharedServer) (ents : Entities)
    (worlds : List (ℕ × World)) (c0 : Client) : Client × List Packet :=
  if c0.channels_closed || !c0.send_connected then
    ({ c0 with send_connected := false }, [])
  else
    match lookupA worlds c0.world with
    | none => (disconnectNoReason c0, [])
    | some w => clientUpdateBody shared ents w c0

/-! ## Helper predicates and fixtures -/

/-- Recognizer for `PlayerPosition` packets. -/
def isPlayerPositionPkt (p : Packet) : Bool := p.tagOf == 13

/-- Recognizer for `KeepAlive` packets. -/
def isKeepAlivePkt (p : Packet) : Bool := p.tagOf == 7

/-- Recognizer for `Respawn` packets. -/
def isRespawnPacket (p : Packet) : Bool := p.tagOf == 2

/-- Recognizer for `BlockChangeAck` packets. -/
def isBlockChangeAckPkt (p : Packet) : Bool := p.tagOf == 12

/-- Recognizer for `RemoveEntities` packets. -/
def isRemoveEntitiesPkt (p : Packet) : Bool := p.tagOf == 21

/-- The state of a freshly logged-in client (`Client::new`): all counters
zero, `modified_spawn_position` and `got_keepalive` set. -/
def newClient (created : ℤ) (uuid : ℕ) : Client where
  send_connected := true
  channels_closed := false
  created_tick := created
  uuid := uuid
  world := 0
  new_position := Vec3.zero
  old_position := Vec3.zero
  velocity := Vec3.zero
  yaw := 0
  pitch := 0
  teleport_id_counter := 0
  pending_teleports := 0
  spawn_position := (0, 0, 0)
  spawn_position_yaw := 0
  death_location := none
  events := []
  last_keepalive_id := 0
  new_max_view_distance := 16
  old_max_view_distance := 0
  loaded_entities := []
  loaded_chunks := []
  new_game_mode := GameMode.survival
  old_game_mode := GameMode.survival
  settings := none
  dug_blocks := []
  msgs_to_send := []
  attack_speed := 4
  movement_speed := 7 / 10
  flags :=
    { spawn := false, sneaking := false, sprinting := false,
      jumping_with_horse := false, on_ground := false,
      teleported_this_tick := false, modified_spawn_position := true,
      got_keepalive := true, hardcore := false,
      attack_speed_modified := false, movement_speed_modified := false,
      velocity_modified := false }
  player_metadata := []
  player_event_codes := []

/-- The dispatch table of the five movement variants of
`Client::handle_serverbound_packet`: the effective
(position, yaw, pitch, on_ground) passed to `handle_movement_packet`,
`none` for every non-movement packet. -/
def moveArgs (c : Client) : C2sPacket → Option (Vec3 × ℚ × ℚ × Bool)
  | .movePlayerPosition position on_ground =>
      some (position, c.yaw, c.pitch, on_ground)
  | .movePlayerPositionAndRotation position yaw pitch on_ground =>
      some (position, yaw, pitch, on_ground)
  | .movePlayerRotation yaw pitch on_ground =>
      some (c.new_position, yaw, pitch, on_ground)
  | .movePlayerStatusOnly on_ground =>
      some (c.new_position, c.yaw, c.pitch, on_ground)
  | .moveVehicle position yaw pitch =>
      some (position, yaw, pitch, c.flags.on_ground)
  | _ => none

/-- A sequence of user `teleport` calls within one tick, applied in
order. -/
def applyTeleports (c : Client) : List (Vec3 × ℚ × ℚ) → Client
  | [] => c
  | t :: rest => applyTeleports (c.teleport t.1 t.2.1 t.2.2) rest

/-- The retention predicate of the chunk-retention loop: the chunk exists,
is within `view_dist + 2` of the center, and was not (re)created this
tick. -/
def chunkKept (w : World) (tick : ℤ) (center : ChunkPos) (vd : ℕ)
    (pos : ChunkPos) : Bool :=
  match lookupA w.chunks pos with
  | some ch => isChunkInViewDistance center pos (vd + 2) && decide (ch.created_tick ≠ tick)
  | none => false

/-- The visibility predicate of the visible-entity loop: the entity exists
and its position is within the view radius of the client. -/
def entVisible (ents : Entities) (clientPos : Vec3) (radius : ℚ) (id : ℕ) : Bool :=
  match lookupA ents id with
  | some e => distLe clientPos e.position radius
  | none => false

/-- A concrete entity that moved by `11/16384` blocks along `x` this tick
(`* 4096` gives exactly `2.75`), with no rotation or other changes. -/
def c9Entity : EntityData where
  kind := EntityKind.other 0
  uuid := 77
  position := ⟨11 / 16384, 0, 0⟩
  old_position := ⟨0, 0, 0⟩
  yaw := 0
  pitch := 0
  head_yaw := 0
  velocity := ⟨0, 0, 0⟩
  on_ground := false
  yaw_or_pitch_modified := false
  velocity_modified := false
  head_yaw_modified := false
  event_codes := []
  updated_metadata := none
  initial_metadata := none
  spawn_payload := 0
  aabb_min := ⟨0, 0, 0⟩
  aabb_max := ⟨1, 1, 1⟩

/-- A client fixture whose `pending_teleports` sits at `u32::MAX`. -/
def cMaxPending : Client :=
  { newClient 0 5 with pending_teleports := U32_SIZE - 1 }

/-- A mid-session client fixture whose `spawn` flag is set. -/
def c6client : Client :=
  { newClient 0 5 with
      flags := { (newClient 0 5).flags with spawn := true } }

/-- A world with no chunks, no player-list traffic and an empty spatial
index, used by concrete witnesses. -/
def emptyWorld : World where
  chunks := []
  dimension := 0
  is_flat := false
  player_list_initial := []
  player_list_diff := []
  spatial_entities := []

/-- A chunk fixture recorded as created on tick 7. -/
def c7chunk : Chunk where
  created_tick := 7
  payload := 3
  block_changes := []

/-- A world holding exactly the chunk `c7chunk` at position `(0, 0)`. -/
def c7world : World where
  chunks := [(((0 : ℤ), (0 : ℤ)), c7chunk)]
  dimension := 0
  is_flat := false
  player_list_initial := []
  player_list_diff := []
  spatial_entities := []

/-- A mid-session client that already has chunk `(0, 0)` loaded. -/
def c7client : Client :=
  { newClient 0 5 with loaded_chunks := [((0 : ℤ), (0 : ℤ))] }

/-- An entity standing just outside the 32-block view radius (distance
`162/5 = 32.4` from the origin) whose tall AABB still projects onto the
origin within the radius. -/
def c8ent : EntityData where
  kind := EntityKind.other 0
  uuid := 99
  position := ⟨0, 0, 162 / 5⟩
  old_position := ⟨0, 0, 162 / 5⟩
  yaw := 0
  pitch := 0
  head_yaw := 0
  velocity := ⟨0, 0, 0⟩
  on_ground := false
  yaw_or_pitch_modified := false
  velocity_modified := false
  head_yaw_modified := false
  event_codes := []
  updated_metadata := none
  initial_metadata := none
  spawn_payload := 6
  aabb_min := ⟨-1, -1, 0⟩
  aabb_max := ⟨1, 1, 40⟩

/-- The entity table holding exactly `c8ent` under id 1. -/
def c8ents : Entities := [(1, c8ent)]

/-- A world whose spatial index holds exactly entity id 1. -/
def c8world : World where
  chunks := []
  dimension := 0
  is_flat := false
  player_list_initial := []
  player_list_diff := []
  spatial_entities := [1]

/-- A mid-session client that already has entity id 1 loaded. -/
def c8client : Client :=
  { newClient 0 5 with loaded_entities := [1] }

/-- A chunk fixture recorded as created on tick 9. -/
def c7chunk9 : Chunk where
  created_tick := 9
  payload := 8
  block_changes := []

/-- A world holding exactly the chunk `c7chunk9` at position `(0, 0)`. -/
def c7world9 : World where
  chunks := [(((0 : ℤ), (0 : ℤ)), c7chunk9)]
  dimension := 0
  is_flat := false
  player_list_initial := []
  player_list_diff := []
  spatial_entities := []

/-! ## General lemmas about the embedding -/

theorem mem_sendIf {conn : Bool} {l : List Packet} {p : Packet}
    (h : p ∈ sendIf conn l) : p ∈ l := by
  cases conn
  · simp [sendIf] at h
  · simpa [sendIf] using h

theorem filter_eq_nil_of_tags {t : ℕ} {A : List ℕ} (ht : t ∉ A) :
    ∀ {δ : List Packet}, (∀ p ∈ δ, p.tagOf ∈ A) →
      δ.filter (fun p => p.tagOf == t) = [] := by
  intro δ
  induction δ with
  | nil => intro _; rfl
  | cons q rest ih =>
    intro h
    have hq : q.tagOf ∈ A := h q (List.mem_cons_self q rest)
    have hne : (q.tagOf == t) = false := by
      apply beq_false_of_ne
      intro hEq
      exact ht (hEq ▸ hq)
    rw [List.filter_cons_of_neg (by simp [hne])]
    exact ih (fun p hp => h p (List.mem_cons_of_mem q hp))

theorem not_mem_of_tags {t : ℕ} {A : List ℕ} {δ : List Packet} {p : Packet}
    (h : ∀ q ∈ δ, q.tagOf ∈ A) (hp : p.tagOf = t) (ht : t ∉ A) : p ∉ δ := by
  intro hmem
  exact ht (hp ▸ h p hmem)

/-! ## Teleport state equations -/

theorem teleport_state_again (c : Client) (pos : Vec3) (yaw pitch : ℚ)
    (h : c.flags.teleported_this_tick = true) :
    c.teleport pos yaw pitch =
      { c with new_position := pos, yaw := yaw, pitch := pitch,
               velocity := Vec3.zero } := by
  simp [Client.teleport, h]

theorem teleport_state_first (c : Client) (pos : Vec3) (yaw pitch : ℚ)
    (h : c.flags.teleported_this_tick = false)
    (hpend : c.pending_teleports + 1 < U32_SIZE) :
    c.teleport pos yaw pitch =
      { c with new_position := pos, yaw := yaw, pitch := pitch,
               velocity := Vec3.zero,
               flags := { c.flags with teleported_this_tick := true },
               pending_teleports := c.pending_teleports + 1,
               teleport_id_counter := wrapAdd1 c.teleport_id_counter } := by
  simp [Client.teleport, h, checkedAdd1, hpend]

theorem teleport_state_overflow (c : Client) (pos : Vec3) (yaw pitch : ℚ)
    (h : c.flags.teleported_this_tick = false)
    (hpend : ¬c.pending_teleports + 1 < U32_SIZE) :
    c.teleport pos yaw pitch =
      { c with new_position := pos, yaw := yaw, pitch := pitch,
               velocity := Vec3.zero,
               flags := { c.flags with teleported_this_tick := true },
               send_connected := false } := by
  simp [Client.teleport, h, checkedAdd1, hpend, disconnectNoReason]

/-! ## Segment state equations (branch-free where possible) -/

theorem gameModeSegment_state (c : Client) :
    (gameModeSegment c).1 = { c with old_game_mode := c.new_game_mode } := by
  obtain ⟨sc, cc, ct, uu, wo, np, op, ve, ya, pc, tic, pt, sp, spy, dl, ev, lk,
    nv, ov, le, lc, ng, og, st, db, ms, ak, mv, fl, pm, pe⟩ := c
  by_cases h : og = ng <;> simp [gameModeSegment, h]

theorem attrSegment_state (c : Client) :
    (attrSegment c).1 =
      { c with flags := { c.flags with attack_speed_modified := false,
                                       movement_speed_modified := false } } := by
  obtain ⟨sc, cc, ct, uu, wo, np, op, ve, ya, pc, tic, pt, sp, spy, dl, ev, lk,
    nv, ov, le, lc, ng, og, st, db, ms, ak, mv, fl, pm, pe⟩ := c
  obtain ⟨f1, f2, f3, f4, f5, f6, f7, f8, f9, f10, f11, f12⟩ := fl
  by_cases h1 : f10 <;> by_cases h2 : f11 <;> simp [attrSegment, h1, h2]

theorem spawnPosSegment_state (c : Client) :
    (spawnPosSegment c).1 =
      { c with flags := { c.flags with modified_spawn_position := false } } := by
  obtain ⟨sc, cc, ct, uu, wo, np, op, ve, ya, pc, tic, pt, sp, spy, dl, ev, lk,
    nv, ov, le, lc, ng, og, st, db, ms, ak, mv, fl, pm, pe⟩ := c
  obtain ⟨f1, f2, f3, f4, f5, f6, f7, f8, f9, f10, f11, f12⟩ := fl
  by_cases h : f7 <;> simp [spawnPosSegment, h]

theorem viewDistSegment_state (tick : ℤ) (c : Client) :
    (viewDistSegment tick c).1 =
      { c with old_max_view_distance := c.new_max_view_distance } := by
  obtain ⟨sc, cc, ct, uu, wo, np, op, ve, ya, pc, tic, pt, sp, spy, dl, ev, lk,
    nv, ov, le, lc, ng, og, st, db, ms, ak, mv, fl, pm, pe⟩ := c
  by_cases h : ov = nv <;> simp [viewDistSegment, h]

theorem teleportSegment_state (c : Client) :
    (teleportSegment c).1 =
      { c with flags := { c.flags with teleported_this_tick := false } } := by
  obtain ⟨sc, cc, ct, uu, wo, np, op, ve, ya, pc, tic, pt, sp, spy, dl, ev, lk,
    nv, ov, le, lc, ng, og, st, db, ms, ak, mv, fl, pm, pe⟩ := c
  obtain ⟨f1, f2, f3, f4, f5, f6, f7, f8, f9, f10, f11, f12⟩ := fl
  by_cases h : f6 <;> simp [teleportSegment, h]

theorem velocitySegment_state (c : Client) :
    (velocitySegment c).1 =
      { c with flags := { c.flags with velocity_modified := false } } := by
  obtain ⟨sc, cc, ct, uu, wo, np, op, ve, ya, pc, tic, pt, sp, spy, dl, ev, lk,
    nv, ov, le, lc, ng, og, st, db, ms, ak, mv, fl, pm, pe⟩ := c
  obtain ⟨f1, f2, f3, f4, f5, f6, f7, f8, f9, f10, f11, f12⟩ := fl
  by_cases h : f12 <;> simp [velocitySegment, h]

theorem digSegment_state (c : Client) :
    (digSegment c).1 = { c with dug_blocks := [] } := rfl

theorem chatSegment_state (c : Client) :
    (chatSegment c).1 = { c with msgs_to_send := [] } := rfl

theorem keepaliveSegment_state_skip (tick rate rand : ℤ) (c : Client)
    (h : Int.tmod tick (rate * 8) ≠ 0) :
    keepaliveSegment tick rate rand c = (c, []) := by
  simp [keepaliveSegment, h]

theorem keepaliveSegment_state_send (tick rate rand : ℤ) (c : Client)
    (h : Int.tmod tick (rate * 8) = 0) (hg : c.flags.got_keepalive = true) :
    keepaliveSegment tick rate rand c =
      ({ c with last_keepalive_id := rand,
                flags := { c.flags with got_keepalive := false } },
       sendIf c.send_connected [Packet.keepAlive rand]) := by
  simp [keepaliveSegment, h, hg]

theorem keepaliveSegment_state_timeout (tick rate rand : ℤ) (c : Client)
    (h : Int.tmod tick (rate * 8) = 0) (hg : c.flags.got_keepalive = false) :
    keepaliveSegment tick rate rand c = (disconnectNoReason c, []) := by
  simp [keepaliveSegment, h, hg]

theorem respawnSegment_state_skip (c : Client) (w : World)
    (h : c.flags.spawn = false) : respawnSegment c w = (c, []) := by
  simp [respawnSegment, h]

theorem respawnSegment_state_spawn (c : Client) (w : World)
    (h : c.flags.spawn = true) :
    respawnSegment c w =
      (Client.teleport
        { c with flags := { c.flags with spawn := false },
                 loaded_entities := [], loaded_chunks := [] }
        c.new_position c.yaw c.pitch,
       sendIf c.send_connected
         [Packet.respawnPkt 0 none c.new_game_mode c.new_game_mode false none,
          Packet.respawnPkt w.dimension (some w.dimension) c.new_game_mode
            c.new_game_mode w.is_flat c.death_location]) := by
  simp [respawnSegment, h]

theorem joinSegment_state (c : Client) (w : World) :
    (joinSegment c w).1 = Client.teleport c c.new_position c.yaw c.pitch := rfl

theorem elseSegment_state (c : Client) (w : World) :
    (elseSegment c w).1 = (gameModeSegment (respawnSegment c w).1).1 := rfl

/-! ## Which packet kinds each egress step can emit -/

theorem eq_of_mem_sendIf_single {conn : Bool} {p q : Packet}
    (h : p ∈ sendIf conn [q]) : p = q := by
  have := mem_sendIf h
  simpa using this

theorem joinSegment_tags (c : Client) (w : World) :
    ∀ p ∈ (joinSegment c w).2, p.tagOf ∈ [0, 1] := by
  intro p hp
  simp only [joinSegment] at hp
  have hp' := mem_sendIf hp
  rcases List.mem_append.1 hp' with h | h
  · obtain ⟨a, -, rfl⟩ := List.mem_map.1 h
    simp [Packet.tagOf]
  · have he := List.mem_singleton.1 h
    subst he
    simp [Packet.tagOf]

theorem respawnSegment_tags (c : Client) (w : World) :
    ∀ p ∈ (respawnSegment c w).2, p.tagOf ∈ [2] := by
  intro p hp
  by_cases h : c.flags.spawn
  · rw [respawnSegment_state_spawn c w h] at hp
    have hp' := mem_sendIf hp
    rcases List.mem_cons.1 hp' with he | h2
    · subst he; simp [Packet.tagOf]
    · have he := List.mem_singleton.1 h2
      subst he; simp [Packet.tagOf]
  · rw [respawnSegment_state_skip c w (by simpa using h)] at hp
    simp at hp

theorem gameModeSegment_tags (c : Client) :
    ∀ p ∈ (gameModeSegment c).2, p.tagOf ∈ [3] := by
  intro p hp
  by_cases h : c.old_game_mode = c.new_game_mode
  · simp [gameModeSegment, h] at hp
  · simp only [gameModeSegment, h, ne_eq, not_false_eq_true, if_true] at hp
    have he := eq_of_mem_sendIf_single hp
    subst he; simp [Packet.tagOf]

theorem elseSegment_tags (c : Client) (w : World) :
    ∀ p ∈ (elseSegment c w).2, p.tagOf ∈ [0, 2, 3] := by
  intro p hp
  simp only [elseSegment] at hp
  rcases List.mem_append.1 hp with h | h
  · rcases List.mem_append.1 h with h1 | h1
    · have ht := respawnSegment_tags c w p h1
      simp at ht; simp [ht]
    · have ht := gameModeSegment_tags _ p h1
      simp at ht; simp [ht]
  · have hm := mem_sendIf h
    obtain ⟨a, -, rfl⟩ := List.mem_map.1 hm
    simp [Packet.tagOf]

theorem attrSegment_snd (c : Client) :
    (attrSegment c).2 =
      (if c.flags.attack_speed_modified then
        sendIf c.send_connected [Packet.updateAttributesPkt 0 c.attack_speed]
      else []) ++
      (if c.flags.movement_speed_modified then
        sendIf c.send_connected [Packet.updateAttributesPkt 1 c.movement_speed]
      else []) := by
  obtain ⟨sc, cc, ct, uu, wo, np, op, ve, ya, pc, tic, pt, sp, spy, dl, ev, lk,
    nv, ov, le, lc, ng, og, st, db, ms, ak, mv, fl, pm, pe⟩ := c
  obtain ⟨f1, f2, f3, f4, f5, f6, f7, f8, f9, f10, f11, f12⟩ := fl
  by_cases h1 : f10 <;> by_cases h2 : f11 <;> simp [attrSegment, h1, h2]

theorem attrSegment_tags (c : Client) :
    ∀ p ∈ (attrSegment c).2, p.tagOf ∈ [4] := by
  intro p hp
  rw [attrSegment_snd] at hp
  rcases List.mem_append.1 hp with h | h <;>
    · split at h
      · have he := eq_of_mem_sendIf_single h
        subst he; simp [Packet.tagOf]
      · simp at h

theorem spawnPosSegment_tags (c : Client) :
    ∀ p ∈ (spawnPosSegment c).2, p.tagOf ∈ [5] := by
  intro p hp
  by_cases h : c.flags.modified_spawn_position
  · simp only [spawnPosSegment, h, if_true] at hp
    have he := eq_of_mem_sendIf_single hp
    subst he; simp [Packet.tagOf]
  · simp [spawnPosSegment, h] at hp

theorem viewDistSegment_tags (tick : ℤ) (c : Client) :
    ∀ p ∈ (viewDistSegment tick c).2, p.tagOf ∈ [6] := by
  intro p hp
  by_cases h : c.old_max_view_distance = c.new_max_view_distance
  · simp [viewDistSegment, h] at hp
  · simp only [viewDistSegment, h, ne_eq, not_false_eq_true, if_true] at hp
    by_cases h2 : c.created_tick = tick
    · simp [h2] at hp
    · simp only [h2, ne_eq, not_false_eq_true, if_true] at hp
      have he := eq_of_mem_sendIf_single hp
      subst he; simp [Packet.tagOf]

theorem keepaliveSegment_tags (tick rate rand : ℤ) (c : Client) :
    ∀ p ∈ (keepaliveSegment tick rate rand c).2, p.tagOf ∈ [7] := by
  intro p hp
  by_cases h : Int.tmod tick (rate * 8) = 0
  · by_cases hg : c.flags.got_keepalive
    · rw [keepaliveSegment_state_send tick rate rand c h hg] at hp
      have he := eq_of_mem_sendIf_single hp
      subst he; simp [Packet.tagOf]
    · rw [keepaliveSegment_state_timeout tick rate rand c h (by simpa using hg)] at hp
      simp at hp
  · rw [keepaliveSegment_state_skip tick rate rand c h] at hp
    simp at hp

theorem centerPackets_tags (c : Client) :
    ∀ p ∈ centerPackets c, p.tagOf ∈ [8] := by
  intro p hp
  by_cases h : sectionOf c.old_position = sectionOf c.new_position
  · simp [centerPackets, h] at hp
  · simp only [centerPackets, h, ne_eq, not_false_eq_true, if_true] at hp
    have he := eq_of_mem_sendIf_single hp
    subst he; simp [Packet.tagOf]


theorem retainLoop_nil (conn : Bool) (w : World) (tick : ℤ) (center : ChunkPos)
    (vd : ℕ) : retainLoop conn w tick center vd [] = ([], []) := rfl

theorem retainLoop_cons_keep (conn : Bool) (w : World) (tick : ℤ)
    (center : ChunkPos) (vd : ℕ) (pos : ChunkPos) (rest : List ChunkPos)
    (ch : Chunk) (hch : lookupA w.chunks pos = some ch)
    (hcond : isChunkInViewDistance center pos (vd + 2) = true ∧ ch.created_tick ≠ tick) :
    retainLoop conn w tick center vd (pos :: rest) =
      (pos :: (retainLoop conn w tick center vd rest).1,
       sendIf conn (ch.block_changes.map Packet.blockChangePkt) ++
         (retainLoop conn w tick center vd rest).2) := by
  rw [retainLoop, hch]
  dsimp only
  rw [if_pos hcond]

theorem retainLoop_cons_forget_found (conn : Bool) (w : World) (tick : ℤ)
    (center : ChunkPos) (vd : ℕ) (pos : ChunkPos) (rest : List ChunkPos)
    (ch : Chunk) (hch : lookupA w.chunks pos = some ch)
    (hcond : ¬(isChunkInViewDistance center pos (vd + 2) = true ∧ ch.created_tick ≠ tick)) :
    retainLoop conn w tick center vd (pos :: rest) =
      ((retainLoop conn w tick center vd rest).1,
       sendIf conn [Packet.forgetLevelChunk pos.1 pos.2] ++
         (retainLoop conn w tick center vd rest).2) := by
  rw [retainLoop, hch]
  dsimp only
  rw [if_neg hcond]

theorem retainLoop_cons_forget_missing (conn : Bool) (w : World) (tick : ℤ)
    (center : ChunkPos) (vd : ℕ) (pos : ChunkPos) (rest : List ChunkPos)
    (hch : lookupA w.chunks pos = none) :
    retainLoop conn w tick center vd (pos :: rest) =
      ((retainLoop conn w tick center vd rest).1,
       sendIf conn [Packet.forgetLevelChunk pos.1 pos.2] ++
         (retainLoop conn w tick center vd rest).2) := by
  rw [retainLoop, hch]

theorem loadLoop_nil (conn : Bool) (w : World) (loaded : List ChunkPos) :
    loadLoop conn w loaded [] = (loaded, []) := rfl

theorem loadLoop_cons_new (conn : Bool) (w : World) (loaded : List ChunkPos)
    (pos : ChunkPos) (rest : List ChunkPos) (ch : Chunk)
    (hch : lookupA w.chunks pos = some ch) (hmem : pos ∉ loaded) :
    loadLoop conn w loaded (pos :: rest) =
      ((loadLoop conn w (pos :: loaded) rest).1,
       sendIf conn (Packet.chunkData pos ch.payload ::
         ch.block_changes.map Packet.blockChangePkt) ++
         (loadLoop conn w (pos :: loaded) rest).2) := by
  rw [loadLoop, hch]
  dsimp only
  rw [if_neg hmem]

theorem loadLoop_cons_old (conn : Bool) (w : World) (loaded : List ChunkPos)
    (pos : ChunkPos) (rest : List ChunkPos) (ch : Chunk)
    (hch : lookupA w.chunks pos = some ch) (hmem : pos ∈ loaded) :
    loadLoop conn w loaded (pos :: rest) = loadLoop conn w loaded rest := by
  rw [loadLoop, hch]
  dsimp only
  rw [if_pos hmem]

theorem loadLoop_cons_missing (conn : Bool) (w : World) (loaded : List ChunkPos)
    (pos : ChunkPos) (rest : List ChunkPos)
    (hch : lookupA w.chunks pos = none) :
    loadLoop conn w loaded (pos :: rest) = loadLoop conn w loaded rest := by
  rw [loadLoop, hch]

theorem retainLoop_tags (conn : Bool) (w : World) (tick : ℤ) (center : ChunkPos)
    (vd : ℕ) : ∀ l, ∀ p ∈ (retainLoop conn w tick center vd l).2,
      p.tagOf ∈ [9, 10] := by
  intro l
  induction l with
  | nil => intro p hp; simp [retainLoop_nil] at hp
  | cons pos rest ih =>
    intro p hp
    cases hch : lookupA w.chunks pos with
    | none =>
      rw [retainLoop_cons_forget_missing conn w tick center vd pos rest hch] at hp
      rcases List.mem_append.1 hp with h | h
      · have he := eq_of_mem_sendIf_single h
        subst he; simp [Packet.tagOf]
      · exact ih p h
    | some ch =>
      by_cases hcond : isChunkInViewDistance center pos (vd + 2) = true ∧
          ch.created_tick ≠ tick
      · rw [retainLoop_cons_keep conn w tick center vd pos rest ch hch hcond] at hp
        rcases List.mem_append.1 hp with h | h
        · have hm := mem_sendIf h
          obtain ⟨a, -, rfl⟩ := List.mem_map.1 hm
          simp [Packet.tagOf]
        · exact ih p h
      · rw [retainLoop_cons_forget_found conn w tick center vd pos rest ch hch hcond] at hp
        rcases List.mem_append.1 hp with h | h
        · have he := eq_of_mem_sendIf_single h
          subst he; simp [Packet.tagOf]
        · exact ih p h

theorem loadLoop_tags (conn : Bool) (w : World) :
    ∀ l loaded, ∀ p ∈ (loadLoop conn w loaded l).2, p.tagOf ∈ [9, 11] := by
  intro l
  induction l with
  | nil => intro loaded p hp; simp [loadLoop_nil] at hp
  | cons pos rest ih =>
    intro loaded p hp
    cases hch : lookupA w.chunks pos with
    | none =>
      rw [loadLoop_cons_missing conn w loaded pos rest hch] at hp
      exact ih loaded p hp
    | some ch =>
      by_cases hmem : pos ∈ loaded
      · rw [loadLoop_cons_old conn w loaded pos rest ch hch hmem] at hp
        exact ih loaded p hp
      · rw [loadLoop_cons_new conn w loaded pos rest ch hch hmem] at hp
        rcases List.mem_append.1 hp with h | h
        · have hm := mem_sendIf h
          rcases List.mem_cons.1 hm with he | h2
          · subst he; simp [Packet.tagOf]
          · obtain ⟨a, -, rfl⟩ := List.mem_map.1 h2
            simp [Packet.tagOf]
        · exact ih _ p h

theorem digSegment_tags (c : Client) :
    ∀ p ∈ (digSegment c).2, p.tagOf ∈ [12] := by
  intro p hp
  simp only [digSegment] at hp
  have hm := mem_sendIf hp
  obtain ⟨a, -, rfl⟩ := List.mem_map.1 hm
  simp [Packet.tagOf]

theorem teleportSegment_tags (c : Client) :
    ∀ p ∈ (teleportSegment c).2, p.tagOf ∈ [13] := by
  intro p hp
  by_cases h : c.flags.teleported_this_tick
  · simp only [teleportSegment, h, if_true] at hp
    have he := eq_of_mem_sendIf_single hp
    subst he; simp [Packet.tagOf]
  · simp [teleportSegment, h] at hp

theorem velocitySegment_tags (c : Client) :
    ∀ p ∈ (velocitySegment c).2, p.tagOf ∈ [14] := by
  intro p hp
  by_cases h : c.flags.velocity_modified
  · simp only [velocitySegment, h, if_true] at hp
    have he := eq_of_mem_sendIf_single hp
    subst he; simp [Packet.tagOf]
  · simp [velocitySegment, h] at hp

theorem chatSegment_tags (c : Client) :
    ∀ p ∈ (chatSegment c).2, p.tagOf ∈ [15] := by
  intro p hp
  simp only [chatSegment] at hp
  have hm := mem_sendIf hp
  obtain ⟨a, -, rfl⟩ := List.mem_map.1 hm
  simp [Packet.tagOf]

theorem entityEventPackets_tags (nid : ℤ) (codes : List ℕ) :
    ∀ p ∈ entityEventPackets nid codes, p.tagOf ∈ [23, 24] := by
  intro p hp
  obtain ⟨a, -, rfl⟩ := List.mem_map.1 hp
  by_cases h : a ≤ ENTITY_EVENT_MAX_BOUND <;> simp [h, Packet.tagOf]

theorem entityVisiblePackets_tags (id : ℕ) (e : EntityData) :
    ∀ p ∈ entityVisiblePackets id e,
      p.tagOf ∈ [22, 17, 16, 18, 19, 14, 20, 23, 24] := by
  intro p hp
  simp only [entityVisiblePackets, List.append_assoc] at hp
  rcases List.mem_append.1 hp with h | h
  · split at h
    · have he := List.mem_singleton.1 h
      subst he; simp [Packet.tagOf]
    · simp at h
  rcases List.mem_append.1 h with h1 | h1
  · split at h1
    · have he := List.mem_singleton.1 h1
      subst he; simp [Packet.tagOf]
    · rcases List.mem_append.1 h1 with h2 | h2 <;> split at h2 <;>
        first
          | (have he := List.mem_singleton.1 h2
             subst he; simp [Packet.tagOf])
          | simp at h2
  rcases List.mem_append.1 h1 with h2 | h2
  · split at h2
    · have he := List.mem_singleton.1 h2
      subst he; simp [Packet.tagOf]
    · simp at h2
  rcases List.mem_append.1 h2 with h3 | h3
  · split at h3
    · have he := List.mem_singleton.1 h3
      subst he; simp [Packet.tagOf]
    · simp at h3
  rcases List.mem_append.1 h3 with h4 | h4
  · split at h4
    · have he := List.mem_singleton.1 h4
      subst he; simp [Packet.tagOf]
    · simp at h4
  · have ht := entityEventPackets_tags (toNetworkId id) e.event_codes p h4
    simp only [List.mem_cons, List.not_mem_nil, or_false] at ht
    rcases ht with ht | ht <;> simp [ht]

theorem entityRetainLoop_nil (conn : Bool) (ents : Entities) (pos : Vec3)
    (radius : ℚ) : entityRetainLoop conn ents pos radius [] = ([], [], []) := rfl

theorem entityRetainLoop_cons_visible (conn : Bool) (ents : Entities)
    (pos : Vec3) (radius : ℚ) (id : ℕ) (rest : List ℕ) (e : EntityData)
    (hch : lookupA ents id = some e) (hv : distLe pos e.position radius = true) :
    entityRetainLoop conn ents pos radius (id :: rest) =
      (id :: (entityRetainLoop conn ents pos radius rest).1,
       (entityRetainLoop conn ents pos radius rest).2.1,
       sendIf conn (entityVisiblePackets id e) ++
         (entityRetainLoop conn ents pos radius rest).2.2) := by
  rw [entityRetainLoop, hch]
  dsimp only
  rw [if_pos hv]

theorem entityRetainLoop_cons_far (conn : Bool) (ents : Entities)
    (pos : Vec3) (radius : ℚ) (id : ℕ) (rest : List ℕ) (e : EntityData)
    (hch : lookupA ents id = some e) (hv : ¬distLe pos e.position radius = true) :
    entityRetainLoop conn ents pos radius (id :: rest) =
      ((entityRetainLoop conn ents pos radius rest).1,
       toNetworkId id :: (entityRetainLoop conn ents pos radius rest).2.1,
       (entityRetainLoop conn ents pos radius rest).2.2) := by
  rw [entityRetainLoop, hch]
  dsimp only
  rw [if_neg hv]

theorem entityRetainLoop_cons_missing (conn : Bool) (ents : Entities)
    (pos : Vec3) (radius : ℚ) (id : ℕ) (rest : List ℕ)
    (hch : lookupA ents id = none) :
    entityRetainLoop conn ents pos radius (id :: rest) =
      ((entityRetainLoop conn ents pos radius rest).1,
       toNetworkId id :: (entityRetainLoop conn ents pos radius rest).2.1,
       (entityRetainLoop conn ents pos radius rest).2.2) := by
  rw [entityRetainLoop, hch]

theorem entityRetainLoop_tags (conn : Bool) (ents : Entities) (pos : Vec3)
    (radius : ℚ) : ∀ l, ∀ p ∈ (entityRetainLoop conn ents pos radius l).2.2,
      p.tagOf ∈ [22, 17, 16, 18, 19, 14, 20, 23, 24] := by
  intro l
  induction l with
  | nil => intro p hp; simp [entityRetainLoop_nil] at hp
  | cons id rest ih =>
    intro p hp
    cases hch : lookupA ents id with
    | none =>
      rw [entityRetainLoop_cons_missing conn ents pos radius id rest hch] at hp
      exact ih p hp
    | some e =>
      by_cases hv : distLe pos e.position radius = true
      · rw [entityRetainLoop_cons_visible conn ents pos radius id rest e hch hv] at hp
        rcases List.mem_append.1 hp with h | h
        · exact entityVisiblePackets_tags id e p (mem_sendIf h)
        · exact ih p h
      · rw [entityRetainLoop_cons_far conn ents pos radius id rest e hch hv] at hp
        exact ih p hp

theorem selfMetaPackets_tags (c : Client) :
    ∀ p ∈ selfMetaPackets c, p.tagOf ∈ [22] := by
  intro p hp
  by_cases h : c.player_metadata = []
  · simp [selfMetaPackets, h] at hp
  · simp only [selfMetaPackets, h, ne_eq, not_false_eq_true, if_true] at hp
    have he := eq_of_mem_sendIf_single hp
    subst he; simp [Packet.tagOf]

theorem discoveryLoop_nil (conn : Bool) (ents : Entities) (selfUuid : ℕ)
    (pos : Vec3) (radius : ℚ) (loaded : List ℕ) :
    discoveryLoop conn ents selfUuid pos radius loaded [] = (loaded, []) := rfl

theorem discoveryLoop_tags (conn : Bool) (ents : Entities) (selfUuid : ℕ)
    (pos : Vec3) (radius : ℚ) :
    ∀ l loaded, ∀ p ∈ (discoveryLoop conn ents selfUuid pos radius loaded l).2,
      p.tagOf ∈ [25, 22, 23, 24] := by
  intro l
  induction l with
  | nil => intro loaded p hp; simp [discoveryLoop_nil] at hp
  | cons id rest ih =>
    intro loaded p hp
    rw [discoveryLoop] at hp
    cases hch : lookupA ents id with
    | none =>
      rw [hch] at hp
      exact ih loaded p hp
    | some e =>
      rw [hch] at hp
      dsimp only at hp
      by_cases ha : aabbProjWithin e.aabb_min e.aabb_max pos radius = true
      · rw [if_pos ha] at hp
        by_cases hc : e.kind ≠ EntityKind.marker ∧ e.uuid ≠ selfUuid ∧ id ∉ loaded
        · rw [if_pos hc] at hp
          dsimp only at hp
          rcases List.mem_append.1 hp with h | h
          · have hm := mem_sendIf h
            rcases List.mem_append.1 hm with h2 | h2
            · rcases List.mem_cons.1 h2 with he | h3
              · subst he; simp [Packet.tagOf]
              · split at h3
                · have he := List.mem_singleton.1 h3
                  subst he; simp [Packet.tagOf]
                · simp at h3
            · have ht := entityEventPackets_tags (toNetworkId id) e.event_codes p h2
              simp only [List.mem_cons, List.not_mem_nil, or_false] at ht
              rcases ht with ht | ht <;> simp [ht]
          · exact ih _ p h
        · rw [if_neg hc] at hp
          exact ih loaded p hp
      · rw [if_neg ha] at hp
        exact ih loaded p hp

theorem selfEventPackets_tags (c : Client) :
    ∀ p ∈ selfEventPackets c, p.tagOf ∈ [23] := by
  intro p hp
  have hm := mem_sendIf hp
  obtain ⟨a, -, rfl⟩ := List.mem_map.1 hm
  simp [Packet.tagOf]

/-! ## Claim C2 -/

/-- C2: handling an inbound `AcceptTeleportation` packet disconnects the
client when `pending_teleports == 0` or when the packet's teleport id
(reinterpreted as `u32`) differs from
`teleport_id_counter - pending_teleports` computed with wraparound, leaving
`pending_teleports` and `teleport_id_counter` unchanged on those branches
(a disconnect only drops the sender); otherwise it decrements
`pending_teleports` by exactly one, which never underflows because the
branch requires `pending_teleports ≠ 0`. -/
theorem c2_accept_teleportation_spec (ents : Entities) (c : Client) (tid : ℤ) :
    (c.pending_teleports = 0 →
      Client.handleServerboundPacket ents c (C2sPacket.acceptTeleportation tid) =
        disconnectNoReason c) ∧
    (c.pending_teleports ≠ 0 →
      i32AsU32 tid ≠ wrapSub c.teleport_id_counter c.pending_teleports →
      Client.handleServerboundPacket ents c (C2sPacket.acceptTeleportation tid) =
        disconnectNoReason c) ∧
    (c.pending_teleports ≠ 0 →
      i32AsU32 tid = wrapSub c.teleport_id_counter c.pending_teleports →
      Client.handleServerboundPacket ents c (C2sPacket.acceptTeleportation tid) =
        { c with pending_teleports := c.pending_teleports - 1 }) := by
  refine ⟨?_, ?_, ?_⟩
  · intro h0
    simp [Client.handleServerboundPacket, h0]
  · intro h0 hne
    simp [Client.handleServerboundPacket, h0, hne]
  · intro h0 heq
    simp [Client.handleServerboundPacket, h0, heq]

/-- Witness for C2 at a concrete client: one pending teleport with counter
1, acknowledged with id 0, leaves zero pending teleports. -/
theorem c2_witness :
    (Client.handleServerboundPacket []
      { newClient 0 5 with pending_teleports := 1, teleport_id_counter := 1 }
      (C2sPacket.acceptTeleportation 0)).pending_teleports = 0 := by
  have h := (c2_accept_teleportation_spec []
    { newClient 0 5 with pending_teleports := 1, teleport_id_counter := 1 } 0).2.2
    (by decide) (by decide)
  rw [h]
  decide

/-! ## Claim C3 -/

/-- C3: for every inbound move-player packet (any of the five variants,
whose effective arguments are given by `moveArgs`): while
`pending_teleports > 0` the packet has no effect at all; with
`pending_teleports == 0` the velocity becomes
`(new_position - old stored position) * STANDARD_TPS`, a `Movement` event
is appended, and the new position, yaw, pitch and on-ground flag are
committed. -/
theorem c3_movement_packet_spec (ents : Entities) (c : Client)
    (pkt : C2sPacket) (np : Vec3) (ny npi : ℚ) (nog : Bool)
    (hargs : moveArgs c pkt = some (np, ny, npi, nog)) :
    (0 < c.pending_teleports →
      Client.handleServerboundPacket ents c pkt = c) ∧
    (c.pending_teleports = 0 →
      Client.handleServerboundPacket ents c pkt =
        { c with new_position := np,
                 velocity := Vec3.scale STANDARD_TPS (np.sub c.new_position),
                 yaw := ny, pitch := npi,
                 flags := { c.flags with on_ground := nog },
                 events := c.events ++
                   [Event.movement c.new_position c.velocity c.yaw c.pitch
                     c.flags.on_ground np
                     (Vec3.scale STANDARD_TPS (np.sub c.new_position))
                     ny npi nog] }) := by
  constructor
  · intro hpos
    have hne : ¬c.pending_teleports = 0 := by omega
    cases pkt <;> simp [moveArgs] at hargs <;>
      · obtain ⟨h1, h2, h3, h4⟩ := hargs
        subst h1; subst h2; subst h3; subst h4
        simp [Client.handleServerboundPacket, handleMovementPacket, hne]
  · intro hzero
    cases pkt <;> simp [moveArgs] at hargs <;>
      · obtain ⟨h1, h2, h3, h4⟩ := hargs
        subst h1; subst h2; subst h3; subst h4
        simp [Client.handleServerboundPacket, handleMovementPacket, hzero]

/-- Witness for C3: a client with one pending teleport ignores a movement
packet entirely, and the same client with no pending teleport commits the
new position `(2, 0, 0)` with velocity `(40, 0, 0)` and queues one
`Movement` event. -/
theorem c3_witness :
    (Client.handleServerboundPacket []
        { newClient 0 5 with pending_teleports := 1 }
        (C2sPacket.movePlayerPosition ⟨2, 0, 0⟩ true) =
      { newClient 0 5 with pending_teleports := 1 }) ∧
    (Client.handleServerboundPacket [] (newClient 0 5)
        (C2sPacket.movePlayerPosition ⟨2, 0, 0⟩ true)).velocity =
      ⟨40, 0, 0⟩ := by
  constructor
  · exact (c3_movement_packet_spec [] { newClient 0 5 with pending_teleports := 1 }
      (C2sPacket.movePlayerPosition ⟨2, 0, 0⟩ true) ⟨2, 0, 0⟩ 0 0 true
      (by decide)).1 (by decide)
  · rw [(c3_movement_packet_spec [] (newClient 0 5)
      (C2sPacket.movePlayerPosition ⟨2, 0, 0⟩ true) ⟨2, 0, 0⟩ 0 0 true
      (by decide)).2 (by decide)]
    simp [newClient, Vec3.scale, Vec3.sub, Vec3.zero, STANDARD_TPS]
    norm_num

/-! ## Claim C5 -/

/-- C5 (amended): the sneaking and sprinting flags track the player
commands and their Start/Stop events are emitted only when the command
changes the flag (redundant sneak/sprint commands are ignored entirely);
the jumping-with-horse flag also tracks the commands, but
`StartJumpWithHorse`/`StopJumpWithHorse` events are emitted on every such
command, including redundant ones. -/
theorem c5_player_command_spec (ents : Entities) (c : Client) (b : ℕ) :
    (c.flags.sneaking = true →
      Client.handleServerboundPacket ents c
        (C2sPacket.playerCommand PlayerCommandId.startSneaking b) = c) ∧
    (c.flags.sneaking = false →
      Client.handleServerboundPacket ents c
        (C2sPacket.playerCommand PlayerCommandId.startSneaking b) =
        pushEvent { c with flags := { c.flags with sneaking := true } }
          Event.startSneaking) ∧
    (c.flags.sneaking = false →
      Client.handleServerboundPacket ents c
        (C2sPacket.playerCommand PlayerCommandId.stopSneaking b) = c) ∧
    (c.flags.sneaking = true →
      Client.handleServerboundPacket ents c
        (C2sPacket.playerCommand PlayerCommandId.stopSneaking b) =
        pushEvent { c with flags := { c.flags with sneaking := false } }
          Event.stopSneaking) ∧
    (c.flags.sprinting = true →
      Client.handleServerboundPacket ents c
        (C2sPacket.playerCommand PlayerCommandId.startSprinting b) = c) ∧
    (c.flags.sprinting = false →
      Client.handleServerboundPacket ents c
        (C2sPacket.playerCommand PlayerCommandId.startSprinting b) =
        pushEvent { c with flags := { c.flags with sprinting := true } }
          Event.startSprinting) ∧
    (c.flags.sprinting = false →
      Client.handleServerboundPacket ents c
        (C2sPacket.playerCommand PlayerCommandId.stopSprinting b) = c) ∧
    (c.flags.sprinting = true →
      Client.handleServerboundPacket ents c
        (C2sPacket.playerCommand PlayerCommandId.stopSprinting b) =
        pushEvent { c with flags := { c.flags with sprinting := false } }
          Event.stopSprinting) ∧
    (Client.handleServerboundPacket ents c
        (C2sPacket.playerCommand PlayerCommandId.startJumpWithHorse b) =
      pushEvent { c with flags := { c.flags with jumping_with_horse := true } }
        (Event.startJumpWithHorse b)) ∧
    (Client.handleServerboundPacket ents c
        (C2sPacket.playerCommand PlayerCommandId.stopJumpWithHorse b) =
      pushEvent { c with flags := { c.flags with jumping_with_horse := false } }
        Event.stopJumpWithHorse) := by
  refine ⟨?_, ?_, ?_, ?_, ?_, ?_, ?_, ?_, ?_, ?_⟩ <;>
    first
      | (intro h; simp [Client.handleServerboundPacket, h])
      | simp [Client.handleServerboundPacket]

/-- Counterexample for C5 as stated: a client that is already jumping with
a horse receives a redundant `StartJumpWithHorse` command, yet an event is
emitted (the claim says a redundant jump command produces no event). -/
theorem c5_counterexample :
    ¬((Client.handleServerboundPacket []
        { newClient 0 5 with
            flags := { (newClient 0 5).flags with jumping_with_horse := true } }
        (C2sPacket.playerCommand PlayerCommandId.startJumpWithHorse 5)).events =
      ({ newClient 0 5 with
          flags := { (newClient 0 5).flags with
            jumping_with_horse := true } } : Client).events) := by
  decide

/-- Witness for C5 (amended) at concrete inputs: a redundant
`StartSneaking` is dropped while a redundant `StartJumpWithHorse` still
emits its event. -/
theorem c5_witness :
    (Client.handleServerboundPacket []
        { newClient 0 5 with
            flags := { (newClient 0 5).flags with sneaking := true } }
        (C2sPacket.playerCommand PlayerCommandId.startSneaking 0) =
      { newClient 0 5 with
          flags := { (newClient 0 5).flags with sneaking := true } }) ∧
    (Client.handleServerboundPacket []
        { newClient 0 5 with
            flags := { (newClient 0 5).flags with jumping_with_horse := true } }
        (C2sPacket.playerCommand PlayerCommandId.startJumpWithHorse 7)).events =
      [Event.startJumpWithHorse 7] := by
  constructor
  · exact (c5_player_command_spec []
      { newClient 0 5 with
          flags := { (newClient 0 5).flags with sneaking := true } } 0).1 rfl
  · rw [(c5_player_command_spec []
      { newClient 0 5 with
          flags := { (newClient 0 5).flags with jumping_with_horse := true } }
      7).2.2.2.2.2.2.2.2.1]
    decide

/-! ### Constructor-level `tagOf` computations -/

@[simp] theorem tagOf_playerInfoPkt (a : ℕ) : (Packet.playerInfoPkt a).tagOf = 0 := rfl

@[simp] theorem tagOf_login (a b c d e f g) : (Packet.login a b c d e f g).tagOf = 1 := rfl

@[simp] theorem tagOf_respawnPkt (a b c d e f) : (Packet.respawnPkt a b c d e f).tagOf = 2 := rfl

@[simp] theorem tagOf_gameEventPkt (a) : (Packet.gameEventPkt a).tagOf = 3 := rfl

@[simp] theorem tagOf_updateAttributesPkt (a b) : (Packet.updateAttributesPkt a b).tagOf = 4 := rfl

@[simp] theorem tagOf_spawnPositionPkt (a b) : (Packet.spawnPositionPkt a b).tagOf = 5 := rfl

@[simp] theorem tagOf_setChunkCacheRadiusPkt (a) : (Packet.setChunkCacheRadiusPkt a).tagOf = 6 := rfl

@[simp] theorem tagOf_keepAlive (a) : (Packet.keepAlive a).tagOf = 7 := rfl

@[simp] theorem tagOf_setChunkCacheCenter (a b) : (Packet.setChunkCacheCenter a b).tagOf = 8 := rfl

@[simp] theorem tagOf_blockChangePkt (a) : (Packet.blockChangePkt a).tagOf = 9 := rfl

@[simp] theorem tagOf_forgetLevelChunk (a b) : (Packet.forgetLevelChunk a b).tagOf = 10 := rfl

@[simp] theorem tagOf_chunkData (a b) : (Packet.chunkData a b).tagOf = 11 := rfl

@[simp] theorem tagOf_blockChangeAck (a) : (Packet.blockChangeAck a).tagOf = 12 := rfl

@[simp] theorem tagOf_playerPosition (a b c d) : (Packet.playerPosition a b c d).tagOf = 13 := rfl

@[simp] theorem tagOf_setEntityMotion (a b) : (Packet.setEntityMotion a b).tagOf = 14 := rfl

@[simp] theorem tagOf_systemChat (a) : (Packet.systemChat a).tagOf = 15 := rfl

@[simp] theorem tagOf_moveEntityPosition (a b c) : (Packet.moveEntityPosition a b c).tagOf = 16 := rfl

@[simp] theorem tagOf_moveEntityPositionAndRotation (a b c d e) :
    (Packet.moveEntityPositionAndRotation a b c d e).tagOf = 17 := rfl

@[simp] theorem tagOf_moveEntityRotation (a b c d) : (Packet.moveEntityRotation a b c d).tagOf = 18 := rfl

@[simp] theorem tagOf_teleportEntity (a b c d e) : (Packet.teleportEntity a b c d e).tagOf = 19 := rfl

@[simp] theorem tagOf_rotateHead (a b) : (Packet.rotateHead a b).tagOf = 20 := rfl

@[simp] theorem tagOf_removeEntities (a) : (Packet.removeEntities a).tagOf = 21 := rfl

@[simp] theorem tagOf_setEntityMetadata (a b) : (Packet.setEntityMetadata a b).tagOf = 22 := rfl

@[simp] theorem tagOf_entityEventPkt (a b) : (Packet.entityEventPkt a b).tagOf = 23 := rfl

@[simp] theorem tagOf_animatePkt (a b) : (Packet.animatePkt a b).tagOf = 24 := rfl

@[simp] theorem tagOf_spawnEntityPkt (a b) : (Packet.spawnEntityPkt a b).tagOf = 25 := rfl

/-! ## Claim C9 -/

/-- C9 (amended): for a visible loaded entity whose position changed this
tick, the packet choice is determined by the deltas — `TeleportEntity`
when the largest per-axis absolute delta is at least 8 blocks; otherwise a
single combined `MoveEntityPositionAndRotation` when yaw-or-pitch was also
modified, a single `MoveEntityPosition` when only the position changed —
and in the non-teleport case the wire delta is `deltaFixed`, i.e.
`(new - old) * 4096` truncated toward zero and saturated to `i16` per axis
(not rounded to nearest as the claim states). -/
theorem c9_entity_move_packet_choice (id : ℕ) (e : EntityData)
    (hpos : e.position ≠ e.old_position) :
    (8 ≤ maxAbsDelta (e.position.sub e.old_position) →
      (entityVisiblePackets id e).filter (fun p => p.tagOf == 19) =
        [Packet.teleportEntity (toNetworkId id) e.position (byteAngle e.yaw)
          (byteAngle e.pitch) e.on_ground] ∧
      (entityVisiblePackets id e).filter (fun p => p.tagOf == 16) = [] ∧
      (entityVisiblePackets id e).filter (fun p => p.tagOf == 17) = []) ∧
    (¬8 ≤ maxAbsDelta (e.position.sub e.old_position) →
      e.yaw_or_pitch_modified = true →
      (entityVisiblePackets id e).filter (fun p => p.tagOf == 17) =
        [Packet.moveEntityPositionAndRotation (toNetworkId id)
          (deltaFixed (e.position.sub e.old_position)) (byteAngle e.yaw)
          (byteAngle e.pitch) e.on_ground] ∧
      (entityVisiblePackets id e).filter (fun p => p.tagOf == 16) = [] ∧
      (entityVisiblePackets id e).filter (fun p => p.tagOf == 18) = [] ∧
      (entityVisiblePackets id e).filter (fun p => p.tagOf == 19) = []) ∧
    (¬8 ≤ maxAbsDelta (e.position.sub e.old_position) →
      e.yaw_or_pitch_modified = false →
      (entityVisiblePackets id e).filter (fun p => p.tagOf == 16) =
        [Packet.moveEntityPosition (toNetworkId id)
          (deltaFixed (e.position.sub e.old_position)) e.on_ground] ∧
      (entityVisiblePackets id e).filter (fun p => p.tagOf == 17) = [] ∧
      (entityVisiblePackets id e).filter (fun p => p.tagOf == 18) = [] ∧
      (entityVisiblePackets id e).filter (fun p => p.tagOf == 19) = []) := by
  have hev16 := filter_eq_nil_of_tags (t := 16) (A := [23, 24]) (by decide)
    (entityEventPackets_tags (toNetworkId id) e.event_codes)
  have hev17 := filter_eq_nil_of_tags (t := 17) (A := [23, 24]) (by decide)
    (entityEventPackets_tags (toNetworkId id) e.event_codes)
  have hev18 := filter_eq_nil_of_tags (t := 18) (A := [23, 24]) (by decide)
    (entityEventPackets_tags (toNetworkId id) e.event_codes)
  have hev19 := filter_eq_nil_of_tags (t := 19) (A := [23, 24]) (by decide)
    (entityEventPackets_tags (toNetworkId id) e.event_codes)
  refine ⟨?_, ?_, ?_⟩
  · intro hnt
    rcases hm : e.updated_metadata with _ | m <;>
      cases hv : e.velocity_modified <;>
        cases hh : e.head_yaw_modified <;>
          cases hy : e.yaw_or_pitch_modified <;>
            simp [entityVisiblePackets, List.filter_append, hm, hv, hh, hy,
              hnt, hpos, hev16, hev17, hev19]
  · intro hnt hy
    rcases hm : e.updated_metadata with _ | m <;>
      cases hv : e.velocity_modified <;>
        cases hh : e.head_yaw_modified <;>
          simp [entityVisiblePackets, List.filter_append, hm, hv, hh, hy,
            hnt, hpos, hev16, hev17, hev18, hev19]
  · intro hnt hy
    rcases hm : e.updated_metadata with _ | m <;>
      cases hv : e.velocity_modified <;>
        cases hh : e.head_yaw_modified <;>
          simp [entityVisiblePackets, List.filter_append, hm, hv, hh, hy,
            hnt, hpos, hev16, hev17, hev18, hev19]

/-- The movement delta of `c9Entity` is `(11/16384, 0, 0)`. -/
theorem c9Entity_delta :
    c9Entity.position.sub c9Entity.old_position = ⟨11 / 16384, 0, 0⟩ := by
  simp [c9Entity, Vec3.sub]

/-- The largest per-axis absolute delta of `c9Entity` is below 8 blocks. -/
theorem c9Entity_small :
    ¬(8 : ℚ) ≤ maxAbsDelta (c9Entity.position.sub c9Entity.old_position) := by
  rw [c9Entity_delta]
  simp only [maxAbsDelta, abs_zero, max_self]
  rw [abs_of_pos (by norm_num), max_eq_left (by norm_num)]
  norm_num

/-- The truncated fixed-point delta of `c9Entity` is `(2, 0, 0)`. -/
theorem c9Entity_fixed :
    deltaFixed (c9Entity.position.sub c9Entity.old_position) = (2, 0, 0) := by
  rw [c9Entity_delta]
  have hq : ((11 : ℚ) / 16384) * 4096 = 11 / 4 := by norm_num
  have hfl : ⌊(11 : ℚ) / 4⌋ = 2 := by
    rw [Int.floor_eq_iff]
    constructor <;> norm_num
  simp only [deltaFixed, ratAsI16, ratTrunc, hq, zero_mul, hfl]
  norm_num

/-- Counterexample for C9 as stated: the entity `c9Entity` moved by
`11/16384` blocks, so `(new - old) * 4096 = 2.75`; the emitted
`MoveEntityPosition` packet carries the truncated delta `2`, while the
claim's `round((new - old) * 4096)` is `3`. -/
theorem c9_counterexample :
    entityVisiblePackets 1 c9Entity =
      [Packet.moveEntityPosition 1 (2, 0, 0) false] ∧
    round (((11 : ℚ) / 16384) * 4096) = 3 ∧ (2 : ℤ) ≠ 3 := by
  refine ⟨?_, ?_, by decide⟩
  · have hsub : (⟨11 / 16384, 0, 0⟩ : Vec3).sub ⟨0, 0, 0⟩ = ⟨11 / 16384, 0, 0⟩ := by
      simp [Vec3.sub]
    have hne : (⟨11 / 16384, 0, 0⟩ : Vec3) ≠ ⟨0, 0, 0⟩ := by
      simp [Vec3.mk.injEq]
    have hmax : maxAbsDelta (⟨11 / 16384, 0, 0⟩ : Vec3) < 8 := by
      simp only [maxAbsDelta, abs_zero, max_self]
      rw [abs_of_pos (by norm_num), max_eq_left (by norm_num)]
      norm_num
    have hfix : deltaFixed (⟨11 / 16384, 0, 0⟩ : Vec3) = (2, 0, 0) := by
      have hq : ((11 : ℚ) / 16384) * 4096 = 11 / 4 := by norm_num
      have hfl : ⌊(11 : ℚ) / 4⌋ = 2 := by
        rw [Int.floor_eq_iff]
        constructor <;> norm_num
      simp only [deltaFixed, ratAsI16, ratTrunc, hq, zero_mul, hfl]
      norm_num
    simp [entityVisiblePackets, c9Entity, entityEventPackets, toNetworkId,
      hsub, hne, hmax, not_le.2 hmax, hfix]
  · have hq : ((11 : ℚ) / 16384) * 4096 = 11 / 4 := by norm_num
    rw [hq, round_eq]
    rw [show (11 : ℚ) / 4 + 1 / 2 = 13 / 4 by norm_num]
    rw [Int.floor_eq_iff]
    constructor <;> norm_num

/-- Witness for C9 (amended): the same concrete entity exercises the
position-only branch with the truncated delta. -/
theorem c9_witness :
    c9Entity.position ≠ c9Entity.old_position ∧
    (entityVisiblePackets 1 c9Entity).filter (fun p => p.tagOf == 16) =
      [Packet.moveEntityPosition (toNetworkId 1)
        (deltaFixed (c9Entity.position.sub c9Entity.old_position))
        c9Entity.on_ground] := by
  have hpos : c9Entity.position ≠ c9Entity.old_position := by
    simp [c9Entity]
  refine ⟨hpos, ?_⟩
  exact ((c9_entity_move_packet_choice 1 c9Entity hpos).2.2
    c9Entity_small (by simp [c9Entity])).1

/-! ## Update pipeline machinery -/

theorem update_unfold (shared : SharedServer) (ents : Entities)
    (worlds : List (ℕ × World)) (c0 : Client) (w : World)
    (hclosed : c0.channels_closed = false) (hconn : c0.send_connected = true)
    (hw : lookupA worlds c0.world = some w) :
    Client.update shared ents worlds c0 = clientUpdateBody shared ents w c0 := by
  simp [Client.update, hclosed, hconn, hw]

theorem not_mem_of_tags_list {A : List ℕ} {δ : List Packet} {p : Packet}
    (h : ∀ q ∈ δ, q.tagOf ∈ A) (ht : p.tagOf ∉ A) : p ∉ δ :=
  fun hm => ht (h p hm)

@[simp] theorem joinSegment_filter (c : Client) (w : World) (t : ℕ)
    (h0 : t ≠ 0) (h1 : t ≠ 1) :
    (joinSegment c w).2.filter (fun p => p.tagOf == t) = [] :=
  filter_eq_nil_of_tags (by simp [h0, h1]) (joinSegment_tags c w)

@[simp] theorem elseSegment_filter (c : Client) (w : World) (t : ℕ)
    (h0 : t ≠ 0) (h2 : t ≠ 2) (h3 : t ≠ 3) :
    (elseSegment c w).2.filter (fun p => p.tagOf == t) = [] :=
  filter_eq_nil_of_tags (by simp [h0, h2, h3]) (elseSegment_tags c w)

@[simp] theorem gameModeSegment_filter (c : Client) (t : ℕ) (h : t ≠ 3) :
    (gameModeSegment c).2.filter (fun p => p.tagOf == t) = [] :=
  filter_eq_nil_of_tags (by simp [h]) (gameModeSegment_tags c)

@[simp] theorem playerInfoMap_filter (l : List ℕ) (t : ℕ) (h : t ≠ 0) :
    (l.map Packet.playerInfoPkt).filter (fun p => p.tagOf == t) = [] := by
  apply filter_eq_nil_of_tags (A := [0]) (by simp [h])
  intro p hp
  obtain ⟨a, -, rfl⟩ := List.mem_map.1 hp
  simp

@[simp] theorem attrSegment_filter (c : Client) (t : ℕ) (h : t ≠ 4) :
    (attrSegment c).2.filter (fun p => p.tagOf == t) = [] :=
  filter_eq_nil_of_tags (by simp [h]) (attrSegment_tags c)

@[simp] theorem spawnPosSegment_filter (c : Client) (t : ℕ) (h : t ≠ 5) :
    (spawnPosSegment c).2.filter (fun p => p.tagOf == t) = [] :=
  filter_eq_nil_of_tags (by simp [h]) (spawnPosSegment_tags c)

@[simp] theorem viewDistSegment_filter (tick : ℤ) (c : Client) (t : ℕ)
    (h : t ≠ 6) :
    (viewDistSegment tick c).2.filter (fun p => p.tagOf == t) = [] :=
  filter_eq_nil_of_tags (by simp [h]) (viewDistSegment_tags tick c)

@[simp] theorem keepaliveSegment_filter (tick rate rand : ℤ) (c : Client)
    (t : ℕ) (h : t ≠ 7) :
    (keepaliveSegment tick rate rand c).2.filter (fun p => p.tagOf == t) = [] :=
  filter_eq_nil_of_tags (by simp [h]) (keepaliveSegment_tags tick rate rand c)

@[simp] theorem centerPackets_filter (c : Client) (t : ℕ) (h : t ≠ 8) :
    (centerPackets c).filter (fun p => p.tagOf == t) = [] :=
  filter_eq_nil_of_tags (by simp [h]) (centerPackets_tags c)

@[simp] theorem retainLoop_filter (conn : Bool) (w : World) (tick : ℤ)
    (center : ChunkPos) (vd : ℕ) (l : List ChunkPos) (t : ℕ)
    (h9 : t ≠ 9) (h10 : t ≠ 10) :
    (retainLoop conn w tick center vd l).2.filter (fun p => p.tagOf == t) = [] :=
  filter_eq_nil_of_tags (by simp [h9, h10]) (retainLoop_tags conn w tick center vd l)

@[simp] theorem loadLoop_filter (conn : Bool) (w : World)
    (loaded l : List ChunkPos) (t : ℕ) (h9 : t ≠ 9) (h11 : t ≠ 11) :
    (loadLoop conn w loaded l).2.filter (fun p => p.tagOf == t) = [] :=
  filter_eq_nil_of_tags (by simp [h9, h11]) (loadLoop_tags conn w l loaded)

@[simp] theorem digSegment_filter (c : Client) (t : ℕ) (h : t ≠ 12) :
    (digSegment c).2.filter (fun p => p.tagOf == t) = [] :=
  filter_eq_nil_of_tags (by simp [h]) (digSegment_tags c)

@[simp] theorem teleportSegment_filter (c : Client) (t : ℕ) (h : t ≠ 13) :
    (teleportSegment c).2.filter (fun p => p.tagOf == t) = [] :=
  filter_eq_nil_of_tags (by simp [h]) (teleportSegment_tags c)

@[simp] theorem velocitySegment_filter (c : Client) (t : ℕ) (h : t ≠ 14) :
    (velocitySegment c).2.filter (fun p => p.tagOf == t) = [] :=
  filter_eq_nil_of_tags (by simp [h]) (velocitySegment_tags c)

@[simp] theorem chatSegment_filter (c : Client) (t : ℕ) (h : t ≠ 15) :
    (chatSegment c).2.filter (fun p => p.tagOf == t) = [] :=
  filter_eq_nil_of_tags (by simp [h]) (chatSegment_tags c)

@[simp] theorem entityRetainLoop_filter (conn : Bool) (ents : Entities)
    (pos : Vec3) (radius : ℚ) (l : List ℕ) (t : ℕ) (h22 : t ≠ 22)
    (h17 : t ≠ 17) (h16 : t ≠ 16) (h18 : t ≠ 18) (h19 : t ≠ 19) (h14 : t ≠ 14)
    (h20 : t ≠ 20) (h23 : t ≠ 23) (h24 : t ≠ 24) :
    (entityRetainLoop conn ents pos radius l).2.2.filter
      (fun p => p.tagOf == t) = [] :=
  filter_eq_nil_of_tags
    (by simp [h22, h17, h16, h18, h19, h14, h20, h23, h24])
    (entityRetainLoop_tags conn ents pos radius l)

@[simp] theorem removeBlock_filter {P : Prop} [Decidable P] (conn : Bool)
    (l : List ℤ) (t : ℕ) (h : t ≠ 21) :
    (if P then ([] : List Packet)
     else sendIf conn [Packet.removeEntities l]).filter
      (fun p => p.tagOf == t) = [] := by
  split
  · rfl
  · apply filter_eq_nil_of_tags (A := [21]) (by simp [h])
    intro p hp
    have he := eq_of_mem_sendIf_single hp
    subst he
    simp

@[simp] theorem selfMetaPackets_filter (c : Client) (t : ℕ) (h : t ≠ 22) :
    (selfMetaPackets c).filter (fun p => p.tagOf == t) = [] :=
  filter_eq_nil_of_tags (by simp [h]) (selfMetaPackets_tags c)

@[simp] theorem discoveryLoop_filter (conn : Bool) (ents : Entities)
    (selfUuid : ℕ) (pos : Vec3) (radius : ℚ) (loaded l : List ℕ) (t : ℕ)
    (h25 : t ≠ 25) (h22 : t ≠ 22) (h23 : t ≠ 23) (h24 : t ≠ 24) :
    (discoveryLoop conn ents selfUuid pos radius loaded l).2.filter
      (fun p => p.tagOf == t) = [] :=
  filter_eq_nil_of_tags (by simp [h25, h22, h23, h24])
    (discoveryLoop_tags conn ents selfUuid pos radius l loaded)

@[simp] theorem selfEventPackets_filter (c : Client) (t : ℕ) (h : t ≠ 23) :
    (selfEventPackets c).filter (fun p => p.tagOf == t) = [] :=
  filter_eq_nil_of_tags (by simp [h]) (selfEventPackets_tags c)

/-! ## Claim C10 -/

/-- C10: a player-action packet with sequence number 0 is never recorded in
`dug_blocks`; handling any inbound packet keeps 0 out of `dug_blocks`, so
no `BlockChangeAck` with sequence 0 is ever emitted; and the next egress
phase acknowledges every recorded sequence number with exactly one
`BlockChangeAck` (in order), leaving `dug_blocks` empty.  Stated for a
connected client in a valid world, past its join tick, with no respawn
pending and no keep-alive timeout firing this tick (otherwise the egress
would disconnect mid-stream and drop the acknowledgements). -/
theorem c10_dig_ack_spec (shared : SharedServer) (ents : Entities)
    (worlds : List (ℕ × World)) (c0 : Client) (w : World)
    (hclosed : c0.channels_closed = false) (hconn : c0.send_connected = true)
    (hw : lookupA worlds c0.world = some w)
    (hjoin : ¬c0.created_tick = shared.current_tick)
    (hspawn : c0.flags.spawn = false)
    (hka : Int.tmod shared.current_tick (shared.tick_rate * 8) ≠ 0 ∨
      c0.flags.got_keepalive = true) :
    (∀ st loc face,
      (Client.handleServerboundPacket ents c0
        (C2sPacket.playerAction st loc face 0)).dug_blocks = c0.dug_blocks) ∧
    (∀ pkt, (0 : ℤ) ∉ c0.dug_blocks →
      (0 : ℤ) ∉ (Client.handleServerboundPacket ents c0 pkt).dug_blocks) ∧
    (Client.update shared ents worlds c0).2.filter (fun p => p.tagOf == 12) =
      c0.dug_blocks.map Packet.blockChangeAck ∧
    (Client.update shared ents worlds c0).1.dug_blocks = [] ∧
    ((0 : ℤ) ∉ c0.dug_blocks →
      Packet.blockChangeAck 0 ∉ (Client.update shared ents worlds c0).2) := by
  have hseq0 : ∀ st loc face,
      (Client.handleServerboundPacket ents c0
        (C2sPacket.playerAction st loc face 0)).dug_blocks = c0.dug_blocks := by
    intro st loc face
    cases st <;> simp [Client.handleServerboundPacket, pushEvent]
  have hinv : ∀ pkt, (0 : ℤ) ∉ c0.dug_blocks →
      (0 : ℤ) ∉ (Client.handleServerboundPacket ents c0 pkt).dug_blocks := by
    intro pkt h0
    cases pkt with
    | acceptTeleportation tid =>
      simp only [Client.handleServerboundPacket]
      split
      · simpa [disconnectNoReason] using h0
      · split <;> simpa [disconnectNoReason] using h0
    | keepAliveC2s kid =>
      simp only [Client.handleServerboundPacket]
      split
      · simpa [disconnectNoReason] using h0
      · split <;> simpa [disconnectNoReason] using h0
    | movePlayerPosition a b =>
      simp only [Client.handleServerboundPacket, handleMovementPacket]
      split <;> simpa using h0
    | movePlayerPositionAndRotation a b c d =>
      simp only [Client.handleServerboundPacket, handleMovementPacket]
      split <;> simpa using h0
    | movePlayerRotation a b c =>
      simp only [Client.handleServerboundPacket, handleMovementPacket]
      split <;> simpa using h0
    | movePlayerStatusOnly a =>
      simp only [Client.handleServerboundPacket, handleMovementPacket]
      split <;> simpa using h0
    | moveVehicle a b c =>
      simp only [Client.handleServerboundPacket, handleMovementPacket]
      split <;> simpa using h0
    | playerAction st loc face seq =>
      simp only [Client.handleServerboundPacket]
      by_cases hseq : seq ≠ 0
      · simp only [if_pos hseq]
        have hz : (0 : ℤ) ∉ c0.dug_blocks ++ [seq] := by
          intro hm
          rcases List.mem_append.1 hm with hm | hm
          · exact h0 hm
          · exact hseq (List.mem_singleton.1 hm).symm
        cases st <;> simpa [pushEvent] using hz
      · simp only [if_neg hseq]
        cases st <;> simpa [pushEvent] using h0
    | playerCommand a b =>
      simp only [Client.handleServerboundPacket]
      cases a <;> simp only [pushEvent] <;> (try split) <;> simpa using h0
    | interact a b k =>
      simp only [Client.handleServerboundPacket]
      split <;> simpa [pushEvent] using h0
    | chat a b => simpa [Client.handleServerboundPacket, pushEvent] using h0
    | clientInformation a =>
      simpa [Client.handleServerboundPacket, pushEvent] using h0
    | paddleBoat a b => simpa [Client.handleServerboundPacket, pushEvent] using h0
    | swing a => simpa [Client.handleServerboundPacket, pushEvent] using h0
    | ignored => simpa [Client.handleServerboundPacket] using h0
  rw [update_unfold shared ents worlds c0 w hclosed hconn hw]
  have hcore : (clientUpdateBody shared ents w c0).2.filter
        (fun p => p.tagOf == 12) =
      c0.dug_blocks.map Packet.blockChangeAck ∧
      (clientUpdateBody shared ents w c0).1.dug_blocks = [] := by
    simp only [clientUpdateBody, if_neg hjoin]
    simp only [elseSegment_state, respawnSegment_state_skip c0 w hspawn,
      gameModeSegment_state, attrSegment_state, spawnPosSegment_state,
      viewDistSegment_state]
    have hmap : (List.map Packet.blockChangeAck c0.dug_blocks).filter
        (fun p => p.tagOf == 12) = List.map Packet.blockChangeAck c0.dug_blocks :=
      List.filter_eq_self.2 (by
        intro a ha
        obtain ⟨s, -, rfl⟩ := List.mem_map.1 ha
        simp)
    rcases hka with htm | hgot
    · simp only [keepaliveSegment, if_neg htm]
      simp [List.filter_append, digSegment, chatSegment, sweepClient,
        teleportSegment_state, velocitySegment_state, hconn, sendIf, hmap]
    · by_cases htm : Int.tmod shared.current_tick (shared.tick_rate * 8) = 0
      · simp only [keepaliveSegment, if_pos htm]
        simp [hgot, List.filter_append, digSegment, chatSegment, sweepClient,
          teleportSegment_state, velocitySegment_state, hconn, sendIf, hmap]
      · simp only [keepaliveSegment, if_neg htm]
        simp [List.filter_append, digSegment, chatSegment, sweepClient,
          teleportSegment_state, velocitySegment_state, hconn, sendIf, hmap]
  refine ⟨hseq0, hinv, hcore.1, hcore.2, ?_⟩
  intro h0 hmem
  have hm2 : Packet.blockChangeAck 0 ∈
      (clientUpdateBody shared ents w c0).2.filter (fun p => p.tagOf == 12) :=
    List.mem_filter.2 ⟨hmem, by simp⟩
  rw [hcore.1] at hm2
  obtain ⟨s, hs, he⟩ := List.mem_map.1 hm2
  have : s = 0 := by
    injection he
  exact h0 (this ▸ hs)

/-- Witness for C10: a mid-session client with recorded dig sequences
`[3, 9]` gets exactly the two acknowledgements, in order, and its
`dug_blocks` is empty afterwards. -/
theorem c10_witness :
    (Client.update ⟨7, 20, 99⟩ [] [(0, emptyWorld)]
        { newClient 0 5 with dug_blocks := [3, 9] }).2.filter
      (fun p => p.tagOf == 12) =
      [Packet.blockChangeAck 3, Packet.blockChangeAck 9] ∧
    (Client.update ⟨7, 20, 99⟩ [] [(0, emptyWorld)]
        { newClient 0 5 with dug_blocks := [3, 9] }).1.dug_blocks = [] := by
  have h := c10_dig_ack_spec ⟨7, 20, 99⟩ [] [(0, emptyWorld)]
    { newClient 0 5 with dug_blocks := [3, 9] } emptyWorld
    (by decide) (by decide) (by decide) (by decide) (by decide)
    (Or.inl (by decide))
  exact ⟨by rw [h.2.2.1]; rfl, h.2.2.2.1⟩

/-! ## Claim C4 -/

/-- C4: on a tick whose number is a multiple of `tick_rate * 8`, the egress
either emits exactly one new `KeepAlive` packet — storing its id in
`last_keepalive_id` and clearing `got_keepalive` — when `got_keepalive` is
set, or disconnects the client when it is not (and then no `KeepAlive` is
emitted); on every other tick no `KeepAlive` packet is emitted and
`got_keepalive` is unchanged by egress.  Stated for a connected client in
a valid world, past its join tick and with no respawn pending. -/
theorem c4_keepalive_spec (shared : SharedServer) (ents : Entities)
    (worlds : List (ℕ × World)) (c0 : Client) (w : World)
    (hclosed : c0.channels_closed = false) (hconn : c0.send_connected = true)
    (hw : lookupA worlds c0.world = some w)
    (hjoin : ¬c0.created_tick = shared.current_tick)
    (hspawn : c0.flags.spawn = false) :
    (Int.tmod shared.current_tick (shared.tick_rate * 8) = 0 →
      c0.flags.got_keepalive = true →
      (Client.update shared ents worlds c0).2.filter (fun p => p.tagOf == 7) =
        [Packet.keepAlive shared.keepalive_rand] ∧
      (Client.update shared ents worlds c0).1.last_keepalive_id =
        shared.keepalive_rand ∧
      (Client.update shared ents worlds c0).1.flags.got_keepalive = false) ∧
    (Int.tmod shared.current_tick (shared.tick_rate * 8) = 0 →
      c0.flags.got_keepalive = false →
      (Client.update shared ents worlds c0).1.isDisconnected = true ∧
      (Client.update shared ents worlds c0).2.filter (fun p => p.tagOf == 7) =
        []) ∧
    (Int.tmod shared.current_tick (shared.tick_rate * 8) ≠ 0 →
      (Client.update shared ents worlds c0).2.filter (fun p => p.tagOf == 7) =
        [] ∧
      (Client.update shared ents worlds c0).1.flags.got_keepalive =
        c0.flags.got_keepalive) := by
  rw [update_unfold shared ents worlds c0 w hclosed hconn hw]
  refine ⟨?_, ?_, ?_⟩
  · intro htm hgot
    simp only [clientUpdateBody, if_neg hjoin]
    simp only [elseSegment_state, respawnSegment_state_skip c0 w hspawn,
      gameModeSegment_state, attrSegment_state, spawnPosSegment_state,
      viewDistSegment_state]
    simp only [keepaliveSegment, if_pos htm]
    simp [hgot, List.filter_append, hconn, sendIf, digSegment, chatSegment,
      sweepClient, teleportSegment_state, velocitySegment_state]
  · intro htm hgot
    simp only [clientUpdateBody, if_neg hjoin]
    simp only [elseSegment_state, respawnSegment_state_skip c0 w hspawn,
      gameModeSegment_state, attrSegment_state, spawnPosSegment_state,
      viewDistSegment_state]
    simp only [keepaliveSegment, if_pos htm]
    simp [hgot, List.filter_append, hconn, sendIf, digSegment, chatSegment,
      sweepClient, teleportSegment_state, velocitySegment_state,
      disconnectNoReason, Client.isDisconnected]
  · intro htm
    simp only [clientUpdateBody, if_neg hjoin]
    simp only [elseSegment_state, respawnSegment_state_skip c0 w hspawn,
      gameModeSegment_state, attrSegment_state, spawnPosSegment_state,
      viewDistSegment_state]
    simp only [keepaliveSegment, if_neg htm]
    simp [List.filter_append, hconn, sendIf, digSegment, chatSegment,
      sweepClient, teleportSegment_state, velocitySegment_state]

/-- Witness for C4 with `tick_rate = 20` at tick 320 (a multiple of 160):
a client holding `got_keepalive` gets exactly one fresh `KeepAlive` and the
flag is cleared; a client that never answered is disconnected. -/
theorem c4_witness :
    (Client.update ⟨320, 20, 4242⟩ [] [(0, emptyWorld)]
        (newClient 0 5)).2.filter (fun p => p.tagOf == 7) =
      [Packet.keepAlive 4242] ∧
    (Client.update ⟨320, 20, 4242⟩ [] [(0, emptyWorld)]
        (newClient 0 5)).1.flags.got_keepalive = false ∧
    (Client.update ⟨320, 20, 4242⟩ [] [(0, emptyWorld)]
        { newClient 0 5 with
            flags := { (newClient 0 5).flags with
              got_keepalive := false } }).1.isDisconnected = true := by
  have h1 := (c4_keepalive_spec ⟨320, 20, 4242⟩ [] [(0, emptyWorld)]
    (newClient 0 5) emptyWorld (by decide) (by decide) (by decide) (by decide)
    (by decide)).1 (by decide) (by decide)
  have h2 := ((c4_keepalive_spec ⟨320, 20, 4242⟩ [] [(0, emptyWorld)]
    { newClient 0 5 with
        flags := { (newClient 0 5).flags with got_keepalive := false } }
    emptyWorld (by decide) (by decide) (by decide) (by decide)
    (by decide)).2.1 (by decide) (by decide)).1
  exact ⟨h1.1, h1.2.2, h2⟩

/-! ## Claim C1 -/

theorem teleport_after_first (c : Client)
    (h : c.flags.teleported_this_tick = true) (hv : c.velocity = Vec3.zero)
    (p : Vec3) (y pi : ℚ) :
    Client.teleport c p y pi = { c with new_position := p, yaw := y, pitch := pi } := by
  rw [teleport_state_again c p y pi h, ← hv]

theorem applyTeleports_coalesce (calls : List (Vec3 × ℚ × ℚ)) :
    ∀ (c : Client), c.flags.teleported_this_tick = true →
      c.velocity = Vec3.zero → ∀ t0,
      applyTeleports c (t0 :: calls) =
        { c with
            new_position := (List.getLast (t0 :: calls) (by simp)).1,
            yaw := (List.getLast (t0 :: calls) (by simp)).2.1,
            pitch := (List.getLast (t0 :: calls) (by simp)).2.2 } := by
  induction calls with
  | nil =>
    intro c h hv t0
    rw [show applyTeleports c [t0] =
      Client.teleport c t0.1 t0.2.1 t0.2.2 from rfl]
    rw [teleport_after_first c h hv]
    simp
  | cons t1 rest ih =>
    intro c h hv t0
    rw [show applyTeleports c (t0 :: t1 :: rest) =
      applyTeleports (Client.teleport c t0.1 t0.2.1 t0.2.2) (t1 :: rest) from rfl]
    rw [teleport_after_first c h hv]
    rw [List.getLast_cons (by simp)]
    exact ih _ (by simpa using h) hv t1

/-- C1 (amended): provided `pending_teleports` is below `u32::MAX`
(otherwise the first call disconnects the client and leaves the counters
unchanged), one or more user `teleport` calls in one tick increment
`pending_teleports` exactly once and `teleport_id_counter` exactly once
(wrapping), subsequent calls change only the stored position, yaw and
pitch, and the egress phase of a connected mid-session client emits
exactly one `PlayerPosition` packet whose position is the argument of the
last call and whose id is `teleport_id_counter - 1` (wrapping). -/
theorem c1_teleport_coalescing (shared : SharedServer) (ents : Entities)
    (worlds : List (ℕ × World)) (c0 : Client) (w : World)
    (t0 : Vec3 × ℚ × ℚ) (rest : List (Vec3 × ℚ × ℚ))
    (hflag : c0.flags.teleported_this_tick = false)
    (hpend : c0.pending_teleports + 1 < U32_SIZE)
    (hclosed : c0.channels_closed = false) (hconn : c0.send_connected = true)
    (hw : lookupA worlds c0.world = some w)
    (hjoin : ¬c0.created_tick = shared.current_tick)
    (hspawn : c0.flags.spawn = false)
    (hka : Int.tmod shared.current_tick (shared.tick_rate * 8) ≠ 0 ∨
      c0.flags.got_keepalive = true) :
    (applyTeleports c0 (t0 :: rest)).pending_teleports =
      c0.pending_teleports + 1 ∧
    (applyTeleports c0 (t0 :: rest)).teleport_id_counter =
      (c0.teleport_id_counter + 1) % U32_SIZE ∧
    (applyTeleports c0 (t0 :: rest)).new_position =
      (List.getLast (t0 :: rest) (by simp)).1 ∧
    (applyTeleports c0 (t0 :: rest)).yaw =
      (List.getLast (t0 :: rest) (by simp)).2.1 ∧
    (applyTeleports c0 (t0 :: rest)).pitch =
      (List.getLast (t0 :: rest) (by simp)).2.2 ∧
    (∀ p y pi, Client.teleport (applyTeleports c0 (t0 :: rest)) p y pi =
      { applyTeleports c0 (t0 :: rest) with
          new_position := p, yaw := y, pitch := pi }) ∧
    (Client.update shared ents worlds (applyTeleports c0 (t0 :: rest))).2.filter
        (fun p => p.tagOf == 13) =
      [Packet.playerPosition (List.getLast (t0 :: rest) (by simp)).1
        (List.getLast (t0 :: rest) (by simp)).2.1
        (List.getLast (t0 :: rest) (by simp)).2.2
        (wrapSub ((c0.teleport_id_counter + 1) % U32_SIZE) 1)] ∧
    (Client.update shared ents worlds
      (applyTeleports c0 (t0 :: rest))).1.pending_teleports =
      c0.pending_teleports + 1 ∧
    (Client.update shared ents worlds
      (applyTeleports c0 (t0 :: rest))).1.teleport_id_counter =
      (c0.teleport_id_counter + 1) % U32_SIZE := by
  have hstep : applyTeleports c0 (t0 :: rest) =
      applyTeleports (Client.teleport c0 t0.1 t0.2.1 t0.2.2) rest := rfl
  have hfirst := teleport_state_first c0 t0.1 t0.2.1 t0.2.2 hflag hpend
  have hc' : applyTeleports c0 (t0 :: rest) =
      { c0 with
          new_position := (List.getLast (t0 :: rest) (by simp)).1,
          yaw := (List.getLast (t0 :: rest) (by simp)).2.1,
          pitch := (List.getLast (t0 :: rest) (by simp)).2.2,
          velocity := Vec3.zero,
          flags := { c0.flags with teleported_this_tick := true },
          pending_teleports := c0.pending_teleports + 1,
          teleport_id_counter := wrapAdd1 c0.teleport_id_counter } := by
    cases rest with
    | nil =>
      rw [show applyTeleports c0 [t0] =
        Client.teleport c0 t0.1 t0.2.1 t0.2.2 from rfl, hfirst]
      simp
    | cons t1 rrest =>
      rw [hstep, hfirst]
      rw [applyTeleports_coalesce rrest _ (by rfl) (by rfl) t1]
      rw [List.getLast_cons (a := t0) (l := t1 :: rrest) (by simp)]
  have hclosed' : (applyTeleports c0 (t0 :: rest)).channels_closed = false := by
    rw [hc']; exact hclosed
  have hconn' : (applyTeleports c0 (t0 :: rest)).send_connected = true := by
    rw [hc']; exact hconn
  have hw' : lookupA worlds (applyTeleports c0 (t0 :: rest)).world = some w := by
    rw [hc']; exact hw
  have hjoin' : ¬(applyTeleports c0 (t0 :: rest)).created_tick =
      shared.current_tick := by
    rw [hc']; exact hjoin
  have hspawn' : (applyTeleports c0 (t0 :: rest)).flags.spawn = false := by
    rw [hc']; exact hspawn
  have hgot' : (applyTeleports c0 (t0 :: rest)).flags.got_keepalive =
      c0.flags.got_keepalive := by
    rw [hc']
  have hwa : wrapAdd1 c0.teleport_id_counter =
      (c0.teleport_id_counter + 1) % U32_SIZE := rfl
  refine ⟨by rw [hc'], by rw [hc']; exact hwa, by rw [hc'], by rw [hc'],
    by rw [hc'], ?_, ?_, ?_, ?_⟩
  · intro p y pi
    refine teleport_after_first _ ?_ ?_ p y pi
    · rw [hc']
    · rw [hc']
  · rw [update_unfold shared ents worlds (applyTeleports c0 (t0 :: rest)) w
      hclosed' hconn' hw']
    rw [hc']
    simp only [clientUpdateBody, if_neg hjoin]
    simp only [elseSegment_state, respawnSegment_state_skip, hspawn,
      gameModeSegment_state, attrSegment_state, spawnPosSegment_state,
      viewDistSegment_state]
    rcases hka with htm | hgot
    · simp only [keepaliveSegment, if_neg htm]
      simp [List.filter_append, hconn, sendIf, teleportSegment,
        digSegment_state, hwa]
      rintro a - - rfl
      simp
    · by_cases htm : Int.tmod shared.current_tick (shared.tick_rate * 8) = 0
      · simp only [keepaliveSegment, if_pos htm]
        simp [hgot, List.filter_append, hconn, sendIf, teleportSegment,
          digSegment_state, hwa]
        rintro a - - rfl
        simp
      · simp only [keepaliveSegment, if_neg htm]
        simp [List.filter_append, hconn, sendIf, teleportSegment,
          digSegment_state, hwa]
        rintro a - - rfl
        simp
  · rw [update_unfold shared ents worlds (applyTeleports c0 (t0 :: rest)) w
      hclosed' hconn' hw']
    rw [hc']
    simp only [clientUpdateBody, if_neg hjoin]
    simp only [elseSegment_state, respawnSegment_state_skip, hspawn,
      gameModeSegment_state, attrSegment_state, spawnPosSegment_state,
      viewDistSegment_state]
    rcases hka with htm | hgot
    · simp only [keepaliveSegment, if_neg htm]
      simp [digSegment, chatSegment, sweepClient, teleportSegment_state,
        velocitySegment_state]
    · by_cases htm : Int.tmod shared.current_tick (shared.tick_rate * 8) = 0
      · simp only [keepaliveSegment, if_pos htm]
        simp [hgot, digSegment, chatSegment, sweepClient,
          teleportSegment_state, velocitySegment_state]
      · simp only [keepaliveSegment, if_neg htm]
        simp [digSegment, chatSegment, sweepClient, teleportSegment_state,
          velocitySegment_state]
  · rw [update_unfold shared ents worlds (applyTeleports c0 (t0 :: rest)) w
      hclosed' hconn' hw']
    rw [hc']
    simp only [clientUpdateBody, if_neg hjoin]
    simp only [elseSegment_state, respawnSegment_state_skip, hspawn,
      gameModeSegment_state, attrSegment_state, spawnPosSegment_state,
      viewDistSegment_state]
    rcases hka with htm | hgot
    · simp only [keepaliveSegment, if_neg htm]
      simp [digSegment, chatSegment, sweepClient, teleportSegment_state,
        velocitySegment_state, hwa]
    · by_cases htm : Int.tmod shared.current_tick (shared.tick_rate * 8) = 0
      · simp only [keepaliveSegment, if_pos htm]
        simp [hgot, digSegment, chatSegment, sweepClient,
          teleportSegment_state, velocitySegment_state, hwa]
      · simp only [keepaliveSegment, if_neg htm]
        simp [digSegment, chatSegment, sweepClient, teleportSegment_state,
          velocitySegment_state, hwa]

/-- C1 counterexample: with `pending_teleports` at `u32::MAX`, a single
`teleport` call does not increment `pending_teleports` at all; instead
the client is disconnected (the Rust code bails out with
`self.disconnect_no_reason()` when `checked_add` overflows), refuting the
unconditional "incremented exactly once" reading of the claim. -/
theorem c1_counterexample :
    (Client.teleport cMaxPending ⟨10, 20, 30⟩ 0 0).pending_teleports =
      U32_SIZE - 1 ∧
    (Client.teleport cMaxPending ⟨10, 20, 30⟩ 0 0).send_connected = false := by
  constructor <;> rfl

/-- Witness for C1: the spec scenario. A mid-session client calls
`teleport((10,20,30),0,0)` then `teleport((40,50,60),90,0)` in one tick;
`pending_teleports` becomes 1 and egress emits exactly one
`PlayerPosition` packet with position `(40,50,60)` and teleport id 0. -/
theorem c1_witness :
    (applyTeleports (newClient 0 5)
        [(⟨10, 20, 30⟩, 0, 0), (⟨40, 50, 60⟩, 90, 0)]).pending_teleports =
      1 ∧
    (Client.update ⟨320, 20, 4242⟩ [] [(0, emptyWorld)]
        (applyTeleports (newClient 0 5)
          [(⟨10, 20, 30⟩, 0, 0), (⟨40, 50, 60⟩, 90, 0)])).2.filter
        (fun p => p.tagOf == 13) =
      [Packet.playerPosition ⟨40, 50, 60⟩ 90 0 0] := by
  have h := c1_teleport_coalescing ⟨320, 20, 4242⟩ [] [(0, emptyWorld)]
    (newClient 0 5) emptyWorld (⟨10, 20, 30⟩, 0, 0) [(⟨40, 50, 60⟩, 90, 0)]
    (by decide) (by decide) (by decide) (by decide) (by decide) (by decide)
    (by decide) (Or.inr (by decide))
  refine ⟨h.1, ?_⟩
  have hg := h.2.2.2.2.2.2.1
  simpa [wrapSub, U32_SIZE] using hg

/-! ## Claim C6 -/

/-- C6: for a connected mid-session client whose `spawn` flag is set (and
whose teleport state allows the handshake to be re-armed), the respawn
block clears `loaded_entities` and `loaded_chunks`, re-arms the teleport
handshake (pending incremented, `teleported_this_tick` set), and the
egress update emits exactly two `Respawn` packets, back-to-back at the
very head of the stream — first the dummy dimension 0, then the dimension
of the client's current world (even if they coincide) — clears the
`spawn` flag, and emits the re-arming `PlayerPosition` packet with the
current position, yaw and pitch. -/
theorem c6_respawn_spec (shared : SharedServer) (ents : Entities)
    (worlds : List (ℕ × World)) (c0 : Client) (w : World)
    (hflag : c0.flags.teleported_this_tick = false)
    (hpend : c0.pending_teleports + 1 < U32_SIZE)
    (hclosed : c0.channels_closed = false) (hconn : c0.send_connected = true)
    (hw : lookupA worlds c0.world = some w)
    (hjoin : ¬c0.created_tick = shared.current_tick)
    (hspawn : c0.flags.spawn = true)
    (hka : Int.tmod shared.current_tick (shared.tick_rate * 8) ≠ 0 ∨
      c0.flags.got_keepalive = true) :
    (respawnSegment c0 w).1.loaded_entities = [] ∧
    (respawnSegment c0 w).1.loaded_chunks = [] ∧
    (respawnSegment c0 w).1.pending_teleports = c0.pending_teleports + 1 ∧
    (respawnSegment c0 w).1.flags.teleported_this_tick = true ∧
    (Client.update shared ents worlds c0).2.take 2 =
      [Packet.respawnPkt 0 none c0.new_game_mode c0.new_game_mode false none,
       Packet.respawnPkt w.dimension (some w.dimension) c0.new_game_mode
         c0.new_game_mode w.is_flat c0.death_location] ∧
    (Client.update shared ents worlds c0).2.filter (fun p => p.tagOf == 2) =
      [Packet.respawnPkt 0 none c0.new_game_mode c0.new_game_mode false none,
       Packet.respawnPkt w.dimension (some w.dimension) c0.new_game_mode
         c0.new_game_mode w.is_flat c0.death_location] ∧
    (Client.update shared ents worlds c0).1.flags.spawn = false ∧
    (Client.update shared ents worlds c0).2.filter (fun p => p.tagOf == 13) =
      [Packet.playerPosition c0.new_position c0.yaw c0.pitch
        (wrapSub (wrapAdd1 c0.teleport_id_counter) 1)] ∧
    (Client.update shared ents worlds c0).1.pending_teleports =
      c0.pending_teleports + 1 := by
  have ht := teleport_state_first
    { c0 with flags := { c0.flags with spawn := false },
              loaded_entities := [], loaded_chunks := [] }
    c0.new_position c0.yaw c0.pitch (by simpa using hflag)
    (by simpa using hpend)
  have hr := respawnSegment_state_spawn c0 w hspawn
  rw [ht] at hr
  refine ⟨by rw [hr], by rw [hr], by rw [hr], by rw [hr], ?_, ?_, ?_, ?_, ?_⟩
  · rw [update_unfold shared ents worlds c0 w hclosed hconn hw]
    simp only [clientUpdateBody, if_neg hjoin]
    simp only [elseSegment, hr]
    simp [sendIf, hconn]
  · rw [update_unfold shared ents worlds c0 w hclosed hconn hw]
    simp only [clientUpdateBody, if_neg hjoin]
    simp only [elseSegment, hr, gameModeSegment_state, attrSegment_state,
      spawnPosSegment_state, viewDistSegment_state]
    rcases hka with htm | hgot
    · simp only [keepaliveSegment, if_neg htm]
      simp [List.filter_append, hconn, sendIf, digSegment_state,
        teleportSegment_state]
      rintro a - - rfl
      simp
    · by_cases htm : Int.tmod shared.current_tick (shared.tick_rate * 8) = 0
      · simp only [keepaliveSegment, if_pos htm]
        simp [hgot, List.filter_append, hconn, sendIf, digSegment_state,
          teleportSegment_state]
        rintro a - - rfl
        simp
      · simp only [keepaliveSegment, if_neg htm]
        simp [List.filter_append, hconn, sendIf, digSegment_state,
          teleportSegment_state]
        rintro a - - rfl
        simp
  · rw [update_unfold shared ents worlds c0 w hclosed hconn hw]
    simp only [clientUpdateBody, if_neg hjoin]
    simp only [elseSegment, hr, gameModeSegment_state, attrSegment_state,
      spawnPosSegment_state, viewDistSegment_state]
    rcases hka with htm | hgot
    · simp only [keepaliveSegment, if_neg htm]
      simp [digSegment, chatSegment, sweepClient, teleportSegment_state,
        velocitySegment_state]
    · by_cases htm : Int.tmod shared.current_tick (shared.tick_rate * 8) = 0
      · simp only [keepaliveSegment, if_pos htm]
        simp [hgot, digSegment, chatSegment, sweepClient,
          teleportSegment_state, velocitySegment_state]
      · simp only [keepaliveSegment, if_neg htm]
        simp [digSegment, chatSegment, sweepClient, teleportSegment_state,
          velocitySegment_state]
  · rw [update_unfold shared ents worlds c0 w hclosed hconn hw]
    simp only [clientUpdateBody, if_neg hjoin]
    simp only [elseSegment, hr, gameModeSegment_state, attrSegment_state,
      spawnPosSegment_state, viewDistSegment_state]
    rcases hka with htm | hgot
    · simp only [keepaliveSegment, if_neg htm]
      simp [List.filter_append, hconn, sendIf, teleportSegment,
        digSegment_state]
      rintro a - - rfl
      simp
    · by_cases htm : Int.tmod shared.current_tick (shared.tick_rate * 8) = 0
      · simp only [keepaliveSegment, if_pos htm]
        simp [hgot, List.filter_append, hconn, sendIf, teleportSegment,
          digSegment_state]
        rintro a - - rfl
        simp
      · simp only [keepaliveSegment, if_neg htm]
        simp [List.filter_append, hconn, sendIf, teleportSegment,
          digSegment_state]
        rintro a - - rfl
        simp
  · rw [update_unfold shared ents worlds c0 w hclosed hconn hw]
    simp only [clientUpdateBody, if_neg hjoin]
    simp only [elseSegment, hr, gameModeSegment_state, attrSegment_state,
      spawnPosSegment_state, viewDistSegment_state]
    rcases hka with htm | hgot
    · simp only [keepaliveSegment, if_neg htm]
      simp [digSegment, chatSegment, sweepClient, teleportSegment_state,
        velocitySegment_state]
    · by_cases htm : Int.tmod shared.current_tick (shared.tick_rate * 8) = 0
      · simp only [keepaliveSegment, if_pos htm]
        simp [hgot, digSegment, chatSegment, sweepClient,
          teleportSegment_state, velocitySegment_state]
      · simp only [keepaliveSegment, if_neg htm]
        simp [digSegment, chatSegment, sweepClient, teleportSegment_state,
          velocitySegment_state]

/-- Witness for C6: a mid-session client with the `spawn` flag set, in a
world of dimension 0. The update emits the two back-to-back `Respawn`
packets (dummy dimension first, and the real dimension equals the dummy
one, exercising the same-dimension case), clears the flag, and the
respawn block empties the chunk view. -/
theorem c6_witness :
    (Client.update ⟨321, 20, 4242⟩ [] [(0, emptyWorld)] c6client).2.take 2 =
      [Packet.respawnPkt 0 none c6client.new_game_mode c6client.new_game_mode
        false none,
       Packet.respawnPkt emptyWorld.dimension (some emptyWorld.dimension)
        c6client.new_game_mode c6client.new_game_mode emptyWorld.is_flat
        c6client.death_location] ∧
    (Client.update ⟨321, 20, 4242⟩ [] [(0, emptyWorld)]
        c6client).1.flags.spawn = false ∧
    (respawnSegment c6client emptyWorld).1.loaded_chunks = [] := by
  have h := c6_respawn_spec ⟨321, 20, 4242⟩ [] [(0, emptyWorld)] c6client
    emptyWorld (by decide) (by decide) (by decide) (by decide) (by decide)
    (by decide) (by decide) (Or.inl (by decide))
  exact ⟨h.2.2.2.2.1, h.2.2.2.2.2.2.1, h.2.1⟩

/-! ## Claim C7 -/

theorem retainLoop_fst (conn : Bool) (w : World) (tick : ℤ)
    (center : ChunkPos) (vd : ℕ) :
    ∀ l, (retainLoop conn w tick center vd l).1 =
      l.filter (fun pos => chunkKept w tick center vd pos) := by
  intro l
  induction l with
  | nil => rfl
  | cons pos rest ih =>
    cases hch : lookupA w.chunks pos with
    | none =>
      rw [retainLoop_cons_forget_missing conn w tick center vd pos rest hch]
      have hk : chunkKept w tick center vd pos = false := by
        simp [chunkKept, hch]
      simp [List.filter_cons, hk, ih]
    | some ch =>
      by_cases hcond : isChunkInViewDistance center pos (vd + 2) = true ∧
          ch.created_tick ≠ tick
      · rw [retainLoop_cons_keep conn w tick center vd pos rest ch hch hcond]
        have hk : chunkKept w tick center vd pos = true := by
          simp [chunkKept, hch, hcond.1, hcond.2]
        simp [List.filter_cons, hk, ih]
      · rw [retainLoop_cons_forget_found conn w tick center vd pos rest ch hch
          hcond]
        have hk : chunkKept w tick center vd pos = false := by
          simp only [chunkKept, hch]
          rcases Classical.em
              (isChunkInViewDistance center pos (vd + 2) = true) with h1 | h1
          · have h2 : ch.created_tick = tick := by
              by_contra h2
              exact hcond ⟨h1, h2⟩
            simp [h2]
          · simp [Bool.eq_false_iff.2 h1]
        simp [List.filter_cons, hk, ih]

theorem forget_mem_retainLoop (w : World) (tick : ℤ) (center : ChunkPos)
    (vd : ℕ) (x z : ℤ) :
    ∀ l, (Packet.forgetLevelChunk x z ∈ (retainLoop true w tick center vd l).2 ↔
      (x, z) ∈ l ∧ chunkKept w tick center vd (x, z) = false) := by
  intro l
  induction l with
  | nil => simp [retainLoop_nil]
  | cons pos rest ih =>
    cases hch : lookupA w.chunks pos with
    | none =>
      rw [retainLoop_cons_forget_missing true w tick center vd pos rest hch]
      constructor
      · intro hp
        rcases List.mem_append.1 hp with h | h
        · have he := eq_of_mem_sendIf_single h
          simp only [Packet.forgetLevelChunk.injEq] at he
          obtain ⟨h1, h2⟩ := he
          subst h1
          subst h2
          refine ⟨by simp, ?_⟩
          simp [chunkKept, hch]
        · have hr := ih.1 h
          exact ⟨List.mem_cons_of_mem _ hr.1, hr.2⟩
      · rintro ⟨hmem, hk⟩
        rcases List.mem_cons.1 hmem with heq | hmem'
        · refine List.mem_append.2 (Or.inl ?_)
          rw [← heq]
          simp [sendIf]
        · exact List.mem_append.2 (Or.inr (ih.2 ⟨hmem', hk⟩))
    | some ch =>
      by_cases hcond : isChunkInViewDistance center pos (vd + 2) = true ∧
          ch.created_tick ≠ tick
      · rw [retainLoop_cons_keep true w tick center vd pos rest ch hch hcond]
        have hkpos : chunkKept w tick center vd pos = true := by
          simp [chunkKept, hch, hcond.1, hcond.2]
        constructor
        · intro hp
          rcases List.mem_append.1 hp with h | h
          · have hm := mem_sendIf h
            obtain ⟨a, -, hpp⟩ := List.mem_map.1 hm
            exact absurd hpp (by simp)
          · have hr := ih.1 h
            exact ⟨List.mem_cons_of_mem _ hr.1, hr.2⟩
        · rintro ⟨hmem, hk⟩
          rcases List.mem_cons.1 hmem with heq | hmem'
          · rw [heq] at hk
            rw [hkpos] at hk
            exact absurd hk (by simp)
          · exact List.mem_append.2 (Or.inr (ih.2 ⟨hmem', hk⟩))
      · rw [retainLoop_cons_forget_found true w tick center vd pos rest ch hch
          hcond]
        have hkpos : chunkKept w tick center vd pos = false := by
          simp only [chunkKept, hch]
          rcases Classical.em
              (isChunkInViewDistance center pos (vd + 2) = true) with h1 | h1
          · have h2 : ch.created_tick = tick := by
              by_contra h2
              exact hcond ⟨h1, h2⟩
            simp [h2]
          · simp [Bool.eq_false_iff.2 h1]
        constructor
        · intro hp
          rcases List.mem_append.1 hp with h | h
          · have he := eq_of_mem_sendIf_single h
            simp only [Packet.forgetLevelChunk.injEq] at he
            obtain ⟨h1, h2⟩ := he
            subst h1
            subst h2
            refine ⟨by simp, ?_⟩
            simpa using hkpos
          · have hr := ih.1 h
            exact ⟨List.mem_cons_of_mem _ hr.1, hr.2⟩
        · rintro ⟨hmem, hk⟩
          rcases List.mem_cons.1 hmem with heq | hmem'
          · refine List.mem_append.2 (Or.inl ?_)
            rw [← heq]
            simp [sendIf]
          · exact List.mem_append.2 (Or.inr (ih.2 ⟨hmem', hk⟩))

theorem chunkData_mem_loadLoop (conn : Bool) (w : World) (pos : ChunkPos)
    (pl : ℕ) :
    ∀ l loaded, Packet.chunkData pos pl ∈ (loadLoop conn w loaded l).2 →
      (∃ ch, lookupA w.chunks pos = some ch ∧ pl = ch.payload) ∧
        pos ∈ l ∧ pos ∉ loaded := by
  intro l
  induction l with
  | nil =>
    intro loaded hp
    simp [loadLoop_nil] at hp
  | cons q rest ih =>
    intro loaded hp
    cases hq : lookupA w.chunks q with
    | none =>
      rw [loadLoop_cons_missing conn w loaded q rest hq] at hp
      have hr := ih loaded hp
      exact ⟨hr.1, List.mem_cons_of_mem _ hr.2.1, hr.2.2⟩
    | some chq =>
      by_cases hm : q ∈ loaded
      · rw [loadLoop_cons_old conn w loaded q rest chq hq hm] at hp
        have hr := ih loaded hp
        exact ⟨hr.1, List.mem_cons_of_mem _ hr.2.1, hr.2.2⟩
      · rw [loadLoop_cons_new conn w loaded q rest chq hq hm] at hp
        rcases List.mem_append.1 hp with h | h
        · have hmm := mem_sendIf h
          rcases List.mem_cons.1 hmm with he | hmm'
          · simp only [Packet.chunkData.injEq] at he
            obtain ⟨h1, h2⟩ := he
            subst h1
            exact ⟨⟨chq, hq, h2⟩, List.mem_cons_self _ _, hm⟩
          · obtain ⟨a, -, hpp⟩ := List.mem_map.1 hmm'
            exact absurd hpp (by simp)
        · have hr := ih (q :: loaded) h
          have hne : pos ∉ (q :: loaded) := hr.2.2
          exact ⟨hr.1, List.mem_cons_of_mem _ hr.2.1,
            fun hc => hne (List.mem_cons_of_mem _ hc)⟩

theorem loadLoop_emits (w : World) (pos : ChunkPos) (ch : Chunk)
    (hch : lookupA w.chunks pos = some ch) :
    ∀ l loaded, pos ∈ l → pos ∉ loaded →
      Packet.chunkData pos ch.payload ∈ (loadLoop true w loaded l).2 := by
  intro l
  induction l with
  | nil =>
    intro loaded hmem _
    exact absurd hmem (by simp)
  | cons q rest ih =>
    intro loaded hmem hnot
    cases hq : lookupA w.chunks q with
    | none =>
      rw [loadLoop_cons_missing true w loaded q rest hq]
      have hne : pos ≠ q := by
        rintro rfl
        rw [hch] at hq
        exact absurd hq (by simp)
      exact ih loaded (by
        rcases List.mem_cons.1 hmem with h | h
        · exact absurd h hne
        · exact h) hnot
    | some chq =>
      by_cases hm : q ∈ loaded
      · rw [loadLoop_cons_old true w loaded q rest chq hq hm]
        have hne : pos ≠ q := by
          rintro rfl
          exact hnot hm
        exact ih loaded (by
          rcases List.mem_cons.1 hmem with h | h
          · exact absurd h hne
          · exact h) hnot
      · rw [loadLoop_cons_new true w loaded q rest chq hq hm]
        by_cases he : pos = q
        · subst he
          rw [hch] at hq
          have hcc : ch = chq := by
            simpa using hq
          subst hcc
          refine List.mem_append.2 (Or.inl ?_)
          simp [sendIf]
        · refine List.mem_append.2 (Or.inr ?_)
          exact ih (q :: loaded) (by
            rcases List.mem_cons.1 hmem with h | h
            · exact absurd h he
            · exact h) (by
            intro hc
            rcases List.mem_cons.1 hc with h | h
            · exact he h
            · exact hnot h)

theorem update_filter_forget (shared : SharedServer) (ents : Entities)
    (worlds : List (ℕ × World)) (c0 : Client) (w : World) (center : ChunkPos)
    (hclosed : c0.channels_closed = false) (hconn : c0.send_connected = true)
    (hw : lookupA worlds c0.world = some w)
    (hjoin : ¬c0.created_tick = shared.current_tick)
    (hspawn : c0.flags.spawn = false)
    (hka : Int.tmod shared.current_tick (shared.tick_rate * 8) ≠ 0 ∨
      c0.flags.got_keepalive = true)
    (hcenter : chunkPosAt c0.new_position = center) :
    (Client.update shared ents worlds c0).2.filter
      (fun p => p.tagOf == 10) =
      (retainLoop true w shared.current_tick center c0.viewDistance
        c0.loaded_chunks).2.filter (fun p => p.tagOf == 10) := by
    rw [update_unfold shared ents worlds c0 w hclosed hconn hw]
    simp only [clientUpdateBody, if_neg hjoin]
    simp only [elseSegment_state, respawnSegment_state_skip, hspawn,
      gameModeSegment_state, attrSegment_state, spawnPosSegment_state,
      viewDistSegment_state]
    rcases hka with htm | hgot
    · simp only [keepaliveSegment, if_neg htm]
      simp [List.filter_append, hconn, sendIf, digSegment_state,
        teleportSegment_state, Client.viewDistance, hcenter]
      rintro a - - rfl
      simp
    · by_cases htm : Int.tmod shared.current_tick (shared.tick_rate * 8) = 0
      · simp only [keepaliveSegment, if_pos htm]
        simp [hgot, List.filter_append, hconn, sendIf, digSegment_state,
          teleportSegment_state, Client.viewDistance, hcenter]
        rintro a - - rfl
        simp
      · simp only [keepaliveSegment, if_neg htm]
        simp [List.filter_append, hconn, sendIf, digSegment_state,
          teleportSegment_state, Client.viewDistance, hcenter]
        rintro a - - rfl
        simp

theorem update_filter_chunkData (shared : SharedServer) (ents : Entities)
    (worlds : List (ℕ × World)) (c0 : Client) (w : World) (center : ChunkPos)
    (hclosed : c0.channels_closed = false) (hconn : c0.send_connected = true)
    (hw : lookupA worlds c0.world = some w)
    (hjoin : ¬c0.created_tick = shared.current_tick)
    (hspawn : c0.flags.spawn = false)
    (hka : Int.tmod shared.current_tick (shared.tick_rate * 8) ≠ 0 ∨
      c0.flags.got_keepalive = true)
    (hcenter : chunkPosAt c0.new_position = center) :
    (Client.update shared ents worlds c0).2.filter
      (fun p => p.tagOf == 11) =
      (loadLoop true w
        (retainLoop true w shared.current_tick center c0.viewDistance
          c0.loaded_chunks).1
        (chunksInViewDistance center c0.viewDistance)).2.filter
        (fun p => p.tagOf == 11) := by
    rw [update_unfold shared ents worlds c0 w hclosed hconn hw]
    simp only [clientUpdateBody, if_neg hjoin]
    simp only [elseSegment_state, respawnSegment_state_skip, hspawn,
      gameModeSegment_state, attrSegment_state, spawnPosSegment_state,
      viewDistSegment_state]
    rcases hka with htm | hgot
    · simp only [keepaliveSegment, if_neg htm]
      simp [List.filter_append, hconn, sendIf, digSegment_state,
        teleportSegment_state, Client.viewDistance, hcenter]
      rintro a - - rfl
      simp
    · by_cases htm : Int.tmod shared.current_tick (shared.tick_rate * 8) = 0
      · simp only [keepaliveSegment, if_pos htm]
        simp [hgot, List.filter_append, hconn, sendIf, digSegment_state,
          teleportSegment_state, Client.viewDistance, hcenter]
        rintro a - - rfl
        simp
      · simp only [keepaliveSegment, if_neg htm]
        simp [List.filter_append, hconn, sendIf, digSegment_state,
          teleportSegment_state, Client.viewDistance, hcenter]
        rintro a - - rfl
        simp

/-- C7 (amended): for a connected mid-session client, a chunk position
receives both a forget-chunk packet and a chunk-data packet in the same
egress phase exactly when it is in `loaded_chunks` but rejected by the
retention pass (in particular when its chunk was re-created this tick),
while the chunk exists and lies in the view-distance candidate square:
retention forgets it, and the loading pass — which runs on the already
pruned set — immediately re-sends it.  The spec's "at most one of the two
kinds per position" is therefore refutable. -/
theorem c7_chunk_spec (shared : SharedServer) (ents : Entities)
    (worlds : List (ℕ × World)) (c0 : Client) (w : World) (center : ChunkPos)
    (x z : ℤ)
    (hclosed : c0.channels_closed = false) (hconn : c0.send_connected = true)
    (hw : lookupA worlds c0.world = some w)
    (hjoin : ¬c0.created_tick = shared.current_tick)
    (hspawn : c0.flags.spawn = false)
    (hka : Int.tmod shared.current_tick (shared.tick_rate * 8) ≠ 0 ∨
      c0.flags.got_keepalive = true)
    (hcenter : chunkPosAt c0.new_position = center) :
    (Packet.forgetLevelChunk x z ∈
        (Client.update shared ents worlds c0).2 ∧
     ∃ pl, Packet.chunkData (x, z) pl ∈
        (Client.update shared ents worlds c0).2) ↔
    ((x, z) ∈ c0.loaded_chunks ∧
     chunkKept w shared.current_tick center c0.viewDistance (x, z) = false ∧
     (x, z) ∈ chunksInViewDistance center c0.viewDistance ∧
     ∃ ch, lookupA w.chunks (x, z) = some ch) := by
  have h10 := update_filter_forget shared ents worlds c0 w center hclosed
    hconn hw hjoin hspawn hka hcenter
  have h11 := update_filter_chunkData shared ents worlds c0 w center hclosed
    hconn hw hjoin hspawn hka hcenter
  constructor
  · rintro ⟨hf, pl, hd⟩
    have hf1 : Packet.forgetLevelChunk x z ∈
        (Client.update shared ents worlds c0).2.filter
          (fun p => p.tagOf == 10) :=
      List.mem_filter.2 ⟨hf, by simp⟩
    rw [h10] at hf1
    have hf2 := (List.mem_filter.1 hf1).1
    have hd1 : Packet.chunkData (x, z) pl ∈
        (Client.update shared ents worlds c0).2.filter
          (fun p => p.tagOf == 11) :=
      List.mem_filter.2 ⟨hd, by simp⟩
    rw [h11] at hd1
    have hd2 := (List.mem_filter.1 hd1).1
    have hfc := (forget_mem_retainLoop w shared.current_tick center
      c0.viewDistance x z c0.loaded_chunks).1 hf2
    have hdc := chunkData_mem_loadLoop true w (x, z) pl
      (chunksInViewDistance center c0.viewDistance)
      (retainLoop true w shared.current_tick center c0.viewDistance
        c0.loaded_chunks).1 hd2
    obtain ⟨⟨ch, hch, -⟩, hcand, -⟩ := hdc
    exact ⟨hfc.1, hfc.2, hcand, ch, hch⟩
  · rintro ⟨hmem, hk, hcand, ch, hch⟩
    have hf2 := (forget_mem_retainLoop w shared.current_tick center
      c0.viewDistance x z c0.loaded_chunks).2 ⟨hmem, hk⟩
    have hnot : (x, z) ∉ (retainLoop true w shared.current_tick center
        c0.viewDistance c0.loaded_chunks).1 := by
      rw [retainLoop_fst]
      intro hc
      have := (List.mem_filter.1 hc).2
      rw [hk] at this
      exact absurd this (by simp)
    have hd2 := loadLoop_emits w (x, z) ch hch
      (chunksInViewDistance center c0.viewDistance)
      (retainLoop true w shared.current_tick center c0.viewDistance
        c0.loaded_chunks).1 hcand hnot
    have hf1 : Packet.forgetLevelChunk x z ∈
        (retainLoop true w shared.current_tick center c0.viewDistance
          c0.loaded_chunks).2.filter (fun p => p.tagOf == 10) :=
      List.mem_filter.2 ⟨hf2, by simp⟩
    rw [← h10] at hf1
    have hd1 : Packet.chunkData (x, z) ch.payload ∈
        (loadLoop true w
          (retainLoop true w shared.current_tick center c0.viewDistance
            c0.loaded_chunks).1
          (chunksInViewDistance center c0.viewDistance)).2.filter
          (fun p => p.tagOf == 11) :=
      List.mem_filter.2 ⟨hd2, by simp⟩
    rw [← h11] at hd1
    exact ⟨(List.mem_filter.1 hf1).1, ch.payload, (List.mem_filter.1 hd1).1⟩

/-- C7 counterexample: a client that has chunk `(0, 0)` loaded while the
world's chunk at `(0, 0)` was (re)created on the current tick receives in
one egress phase both the forget-chunk packet and the full chunk-data
packet for that position, refuting the claim that each chunk position
occurs in at most one of the two kinds per tick. -/
theorem c7_counterexample :
    Packet.forgetLevelChunk 0 0 ∈
      (Client.update ⟨7, 20, 4242⟩ [] [(0, c7world)] c7client).2 ∧
    Packet.chunkData (0, 0) 3 ∈
      (Client.update ⟨7, 20, 4242⟩ [] [(0, c7world)] c7client).2 := by
  have hcenter : chunkPosAt c7client.new_position = ((0 : ℤ), (0 : ℤ)) := by
    norm_num [chunkPosAt, c7client, newClient, Vec3.zero]
  have h10 := update_filter_forget ⟨7, 20, 4242⟩ [] [(0, c7world)] c7client
    c7world ((0 : ℤ), (0 : ℤ)) (by decide) (by decide) (by decide) (by decide)
    (by decide) (Or.inl (by decide)) hcenter
  have h11 := update_filter_chunkData ⟨7, 20, 4242⟩ [] [(0, c7world)] c7client
    c7world ((0 : ℤ), (0 : ℤ)) (by decide) (by decide) (by decide) (by decide)
    (by decide) (Or.inl (by decide)) hcenter
  constructor
  · have hx : Packet.forgetLevelChunk 0 0 ∈
        (Client.update ⟨7, 20, 4242⟩ [] [(0, c7world)] c7client).2.filter
          (fun p => p.tagOf == 10) := by
      rw [h10]
      decide
    exact (List.mem_filter.1 hx).1
  · have hx : Packet.chunkData (0, 0) 3 ∈
        (Client.update ⟨7, 20, 4242⟩ [] [(0, c7world)] c7client).2.filter
          (fun p => p.tagOf == 11) := by
      rw [h11]
      decide
    exact (List.mem_filter.1 hx).1

/-- Witness for C7 (amended): on the re-created-chunk scenario the
characterization is exercised in the positive direction — position
`(0, 0)` is in `loaded_chunks`, fails the retention predicate, lies in the
candidate square and exists in the world, so both packets are emitted. -/
theorem c7_witness :
    Packet.forgetLevelChunk 0 0 ∈
      (Client.update ⟨9, 20, 1111⟩ [] [(0, c7world9)] c7client).2 ∧
    ∃ pl, Packet.chunkData (0, 0) pl ∈
      (Client.update ⟨9, 20, 1111⟩ [] [(0, c7world9)] c7client).2 := by
  have hcenter : chunkPosAt c7client.new_position = ((0 : ℤ), (0 : ℤ)) := by
    norm_num [chunkPosAt, c7client, newClient, Vec3.zero]
  exact (c7_chunk_spec ⟨9, 20, 1111⟩ [] [(0, c7world9)] c7client c7world9
    ((0 : ℤ), (0 : ℤ)) 0 0 (by decide) (by decide) (by decide) (by decide)
    (by decide) (Or.inl (by decide)) hcenter).2
    ⟨by decide, by decide, by decide, c7chunk9, by decide⟩

/-! ## Claim C8 -/

theorem entityRetainLoop_removed (conn : Bool) (ents : Entities) (pos : Vec3)
    (radius : ℚ) :
    ∀ l, (entityRetainLoop conn ents pos radius l).2.1 =
      (l.filter (fun id => !entVisible ents pos radius id)).map toNetworkId := by
  intro l
  induction l with
  | nil => rfl
  | cons id rest ih =>
    cases hch : lookupA ents id with
    | none =>
      rw [entityRetainLoop_cons_missing conn ents pos radius id rest hch]
      have hv : entVisible ents pos radius id = false := by
        simp [entVisible, hch]
      simp [List.filter_cons, hv, ih]
    | some e =>
      by_cases hd : distLe pos e.position radius = true
      · rw [entityRetainLoop_cons_visible conn ents pos radius id rest e hch hd]
        have hv : entVisible ents pos radius id = true := by
          simp [entVisible, hch, hd]
        simp [List.filter_cons, hv, ih]
      · rw [entityRetainLoop_cons_far conn ents pos radius id rest e hch
          (by simpa using hd)]
        have hv : entVisible ents pos radius id = false := by
          simp only [entVisible, hch]
          simpa using hd
        simp [List.filter_cons, hv, ih]

theorem entityRetainLoop_kept (conn : Bool) (ents : Entities) (pos : Vec3)
    (radius : ℚ) :
    ∀ l, (entityRetainLoop conn ents pos radius l).1 =
      l.filter (fun id => entVisible ents pos radius id) := by
  intro l
  induction l with
  | nil => rfl
  | cons id rest ih =>
    cases hch : lookupA ents id with
    | none =>
      rw [entityRetainLoop_cons_missing conn ents pos radius id rest hch]
      have hv : entVisible ents pos radius id = false := by
        simp [entVisible, hch]
      simp [List.filter_cons, hv, ih]
    | some e =>
      by_cases hd : distLe pos e.position radius = true
      · rw [entityRetainLoop_cons_visible conn ents pos radius id rest e hch hd]
        have hv : entVisible ents pos radius id = true := by
          simp [entVisible, hch, hd]
        simp [List.filter_cons, hv, ih]
      · rw [entityRetainLoop_cons_far conn ents pos radius id rest e hch
          (by simpa using hd)]
        have hv : entVisible ents pos radius id = false := by
          simp only [entVisible, hch]
          simpa using hd
        simp [List.filter_cons, hv, ih]

theorem update_filter_remove (shared : SharedServer) (ents : Entities)
    (worlds : List (ℕ × World)) (c0 : Client) (w : World)
    (hclosed : c0.channels_closed = false) (hconn : c0.send_connected = true)
    (hw : lookupA worlds c0.world = some w)
    (hjoin : ¬c0.created_tick = shared.current_tick)
    (hspawn : c0.flags.spawn = false)
    (hka : Int.tmod shared.current_tick (shared.tick_rate * 8) ≠ 0 ∨
      c0.flags.got_keepalive = true) :
    (Client.update shared ents worlds c0).2.filter
      (fun p => p.tagOf == 21) =
      (if (entityRetainLoop true ents c0.new_position
            ((c0.viewDistance : ℚ) * 16) c0.loaded_entities).2.1 = [] then []
       else [Packet.removeEntities
        (entityRetainLoop true ents c0.new_position
          ((c0.viewDistance : ℚ) * 16) c0.loaded_entities).2.1]) := by
  rw [update_unfold shared ents worlds c0 w hclosed hconn hw]
  simp only [clientUpdateBody, if_neg hjoin]
  simp only [elseSegment_state, respawnSegment_state_skip, hspawn,
    gameModeSegment_state, attrSegment_state, spawnPosSegment_state,
    viewDistSegment_state]
  rcases hka with htm | hgot
  · simp only [keepaliveSegment, if_neg htm]
    simp [List.filter_append, hconn, sendIf, digSegment_state,
      teleportSegment_state, velocitySegment_state, chatSegment_state,
      Client.viewDistance]
  · by_cases htm : Int.tmod shared.current_tick (shared.tick_rate * 8) = 0
    · simp only [keepaliveSegment, if_pos htm]
      simp [hgot, List.filter_append, hconn, sendIf, digSegment_state,
        teleportSegment_state, velocitySegment_state, chatSegment_state,
        Client.viewDistance]
    · simp only [keepaliveSegment, if_neg htm]
      simp [List.filter_append, hconn, sendIf, digSegment_state,
        teleportSegment_state, velocitySegment_state, chatSegment_state,
        Client.viewDistance]

theorem update_loadedEntities (shared : SharedServer) (ents : Entities)
    (worlds : List (ℕ × World)) (c0 : Client) (w : World)
    (hclosed : c0.channels_closed = false) (hconn : c0.send_connected = true)
    (hw : lookupA worlds c0.world = some w)
    (hjoin : ¬c0.created_tick = shared.current_tick)
    (hspawn : c0.flags.spawn = false)
    (hka : Int.tmod shared.current_tick (shared.tick_rate * 8) ≠ 0 ∨
      c0.flags.got_keepalive = true) :
    (Client.update shared ents worlds c0).1.loaded_entities =
      (discoveryLoop true ents c0.uuid c0.new_position
        ((c0.viewDistance : ℚ) * 16)
        (entityRetainLoop true ents c0.new_position
          ((c0.viewDistance : ℚ) * 16) c0.loaded_entities).1
        w.spatial_entities).1 := by
  rw [update_unfold shared ents worlds c0 w hclosed hconn hw]
  simp only [clientUpdateBody, if_neg hjoin]
  simp only [elseSegment_state, respawnSegment_state_skip, hspawn,
    gameModeSegment_state, attrSegment_state, spawnPosSegment_state,
    viewDistSegment_state]
  rcases hka with htm | hgot
  · simp only [keepaliveSegment, if_neg htm]
    simp [digSegment, chatSegment, sweepClient, teleportSegment_state,
      velocitySegment_state, Client.viewDistance, hconn]
  · by_cases htm : Int.tmod shared.current_tick (shared.tick_rate * 8) = 0
    · simp only [keepaliveSegment, if_pos htm]
      simp [hgot, digSegment, chatSegment, sweepClient,
        teleportSegment_state, velocitySegment_state, Client.viewDistance,
        hconn]
    · simp only [keepaliveSegment, if_neg htm]
      simp [digSegment, chatSegment, sweepClient, teleportSegment_state,
        velocitySegment_state, Client.viewDistance, hconn]

/-- C8 (amended): for a connected mid-session client, the ids listed in
the tick's `RemoveEntities` packet are exactly the network ids of the
entries of `loaded_entities` rejected by the position-based visible-entity
retention pass, and the packet is present in the outbound stream iff that
list is nonempty.  Membership of `loaded_entities` at the *end* of the
tick is not equivalent: the AABB-based discovery pass can re-add an id
that was just removed. -/
theorem c8_remove_spec (shared : SharedServer) (ents : Entities)
    (worlds : List (ℕ × World)) (c0 : Client) (w : World)
    (hclosed : c0.channels_closed = false) (hconn : c0.send_connected = true)
    (hw : lookupA worlds c0.world = some w)
    (hjoin : ¬c0.created_tick = shared.current_tick)
    (hspawn : c0.flags.spawn = false)
    (hka : Int.tmod shared.current_tick (shared.tick_rate * 8) ≠ 0 ∨
      c0.flags.got_keepalive = true) :
    (entityRetainLoop true ents c0.new_position
        ((c0.viewDistance : ℚ) * 16) c0.loaded_entities).2.1 =
      (c0.loaded_entities.filter (fun id =>
        !entVisible ents c0.new_position ((c0.viewDistance : ℚ) * 16) id)).map
        toNetworkId ∧
    (Client.update shared ents worlds c0).2.filter
      (fun p => p.tagOf == 21) =
      (if (entityRetainLoop true ents c0.new_position
            ((c0.viewDistance : ℚ) * 16) c0.loaded_entities).2.1 = [] then []
       else [Packet.removeEntities
        (entityRetainLoop true ents c0.new_position
          ((c0.viewDistance : ℚ) * 16) c0.loaded_entities).2.1]) :=
  ⟨entityRetainLoop_removed true ents c0.new_position
      ((c0.viewDistance : ℚ) * 16) c0.loaded_entities,
   update_filter_remove shared ents worlds c0 w hclosed hconn hw hjoin hspawn
      hka⟩

/-- C8 counterexample: entity 1 stands `32.4` blocks away, outside the
32-block retention radius, so it is dropped from `loaded_entities` and
listed in the `RemoveEntities` packet; but its tall AABB projects onto
the client within 32 blocks, so the discovery pass re-adds it in the same
tick.  The id is listed in `RemoveEntities` yet is a member of
`loaded_entities` at the end of the tick, refuting the claimed
equivalence. -/
theorem c8_counterexample :
    Packet.removeEntities [1] ∈
      (Client.update ⟨11, 20, 7⟩ c8ents [(0, c8world)] c8client).2 ∧
    1 ∈ (Client.update ⟨11, 20, 7⟩ c8ents [(0, c8world)] c8client).1.loaded_entities := by
  have hrem : (entityRetainLoop true c8ents c8client.new_position
      ((c8client.viewDistance : ℚ) * 16) c8client.loaded_entities).2.1 =
      [1] := by
    norm_num [entityRetainLoop, c8ents, c8ent, c8client, newClient, lookupA,
      distLe, Vec3.zero, toNetworkId, Client.viewDistance]
  have hkept : (entityRetainLoop true c8ents c8client.new_position
      ((c8client.viewDistance : ℚ) * 16) c8client.loaded_entities).1 =
      [] := by
    norm_num [entityRetainLoop, c8ents, c8ent, c8client, newClient, lookupA,
      distLe, Vec3.zero, Client.viewDistance]
  have h21 := update_filter_remove ⟨11, 20, 7⟩ c8ents [(0, c8world)] c8client
    c8world (by decide) (by decide) (by decide) (by decide) (by decide)
    (Or.inl (by decide))
  rw [hrem, if_neg (by simp : ¬([(1 : ℤ)] = []))] at h21
  constructor
  · have hx : Packet.removeEntities [1] ∈
        (Client.update ⟨11, 20, 7⟩ c8ents [(0, c8world)] c8client).2.filter
          (fun p => p.tagOf == 21) := by
      rw [h21]
      simp
    exact (List.mem_filter.1 hx).1
  · have hle := update_loadedEntities ⟨11, 20, 7⟩ c8ents [(0, c8world)]
      c8client c8world (by decide) (by decide) (by decide) (by decide)
      (by decide) (Or.inl (by decide))
    rw [hkept] at hle
    have hdl : (discoveryLoop true c8ents c8client.uuid c8client.new_position
        ((c8client.viewDistance : ℚ) * 16) [] c8world.spatial_entities).1 =
        [1] := by
      norm_num [discoveryLoop, c8ents, c8ent, c8client, c8world, newClient,
        lookupA, aabbProjWithin, distLe, Vec3.zero, Client.viewDistance]
      simp
    rw [hdl] at hle
    rw [hle]
    simp

/-- Witness for C8 (amended): a fresh mid-session client with no loaded
entities — the retention pass removes nothing, so no `RemoveEntities`
packet is emitted this tick. -/
theorem c8_witness :
    (entityRetainLoop true [] (newClient 0 5).new_position
        (((newClient 0 5).viewDistance : ℚ) * 16)
        (newClient 0 5).loaded_entities).2.1 = [] ∧
    (Client.update ⟨321, 20, 4242⟩ [] [(0, emptyWorld)]
        (newClient 0 5)).2.filter (fun p => p.tagOf == 21) = [] := by
  have h := c8_remove_spec ⟨321, 20, 4242⟩ [] [(0, emptyWorld)]
    (newClient 0 5) emptyWorld (by decide) (by decide) (by decide)
    (by decide) (by decide) (Or.inl (by decide))
  refine ⟨by simpa [newClient] using h.1, ?_⟩
  rw [h.2, h.1]
  simp [newClient]
